import Mathlib

/-
Verification development for the QuickBase -> ArcGIS one-way sync script
(src/QB_ArcGIS_Sync_Automated.py).  The Python code is shallowly embedded:
Python scalars become the inductive PyVal (ints and floats are modelled
together as exact rationals), dicts become association lists, datetimes
become a record of calendar fields, and the remote feature store becomes an
explicit oracle function.  Source line numbers are cited next to each
definition.
-/

namespace QBSync

/-- Naive datetime.datetime value: calendar fields plus microseconds. -/
structure PyDateTime where
  year : ℕ
  month : ℕ
  day : ℕ
  hour : ℕ
  minute : ℕ
  second : ℕ
  usec : ℕ
deriving DecidableEq, Repr

/-- Scalar element of a QuickBase multi-select list value (the platform
sends lists of scalars, never nested lists). -/
inductive PyScalar : Type where
  | none : PyScalar
  | str : String → PyScalar
  | num : ℚ → PyScalar
  | bool : Bool → PyScalar
deriving DecidableEq

/-- Model of the Python values flowing through the script: None, strings,
numbers (int and float modelled together as exact rationals; IEEE float
rounding of non-representable values is not modelled), booleans, lists of
scalars and datetime objects. -/
inductive PyVal : Type where
  | none : PyVal
  | str : String → PyVal
  | num : ℚ → PyVal
  | bool : Bool → PyVal
  | list : List PyScalar → PyVal
  | date : PyDateTime → PyVal
deriving DecidableEq

/-- A scalar viewed as a value (Python has no such coercion to take: the
elements of a list simply are values). -/
def PyScalar.toVal : PyScalar → PyVal
  | .none => .none
  | .str s => .str s
  | .num q => .num q
  | .bool b => .bool b

/-- Attribute dictionaries (QuickBase rows, ArcGIS feature attributes and
update payloads) as insertion-ordered association lists with unique keys. -/
abbrev Attrs := List (String × PyVal)

/-- Is this value a Python list? -/
def PyVal.isList : PyVal → Bool
  | .list _ => true
  | _ => false

/-- First binding of a key in an association list (Python dict lookup). -/
def lookupStr {α : Type} : List (String × α) → String → Option α
  | [], _ => Option.none
  | (k2, v) :: t, k => if k2 = k then some v else lookupStr t k

/-- Python dict.get(k) with default None. -/
def dictGet (d : Attrs) (k : String) : PyVal :=
  (lookupStr d k).getD PyVal.none

/-- Python dict assignment d[k] = v: replace the binding in place, else append. -/
def assocSet {α : Type} : List (String × α) → String → α → List (String × α)
  | [], k, v => [(k, v)]
  | (k2, v2) :: t, k, v =>
    if k2 = k then (k, v) :: t else (k2, v2) :: assocSet t k v

/-- Python str.strip(): drop leading and trailing whitespace. -/
def stripChars (l : List Char) : List Char :=
  ((l.dropWhile Char.isWhitespace).reverse.dropWhile Char.isWhitespace).reverse

/-- Python str.strip() on strings. -/
def pyStrip (s : String) : String := String.mk (stripChars s.toList)

/-- Python str.lower() (ASCII model). -/
def pyLower (s : String) : String := String.mk (s.toList.map Char.toLower)

/-- Python str() of the values the script stringifies (business keys and
joined multi-select lists).  Exact for None, booleans, strings and integral
numbers; the decimal repr of non-integral floats, datetimes and nested lists
is approximated, since no modelled code path depends on those strings. -/
def pyStr : PyVal → String
  | .none => "None"
  | .str s => s
  | .bool true => "True"
  | .bool false => "False"
  | .num q => if q.den = 1 then toString q.num else toString q.num ++ "/" ++ toString q.den
  | .date d => "datetime.datetime(" ++ toString d.year ++ ", " ++ toString d.month ++ ", " ++ toString d.day ++ ")"
  | .list _ => "[list]"

/-- Python truthiness of the values the script tests with `if not x`. -/
def pyTruthy : PyVal → Bool
  | .none => false
  | .str s => if s = "" then false else true
  | .num q => if q = 0 then false else true
  | .bool b => b
  | .list l => if l = [] then false else true
  | .date _ => true

/-- Python membership `v in (None, "", 0)` used for the FDH date-clear
guard (source line 383): equality-based, so False and 0.0 also count as 0. -/
def pyEmptyZero : PyVal → Bool
  | .none => true
  | .str s => s = ""
  | .num q => q = 0
  | .bool b => b = false
  | _ => false

/-- Python membership `x in (None, "")` used when joining list elements. -/
def pyNoneOrEmptyStr : PyVal → Bool
  | .none => true
  | .str s => s = ""
  | _ => false

/-- Numeric value of an ASCII digit character. -/
def digitVal (c : Char) : ℕ := c.toNat - 48

/-- Value of a run of ASCII digits. -/
def digitsToNat (l : List Char) : ℕ :=
  l.foldl (fun a c => 10 * a + digitVal c) 0

/-- Exact rational arithmetic helpers built on mkRat, which (unlike the
library's Rat arithmetic, sealed against unfolding) evaluates by reduction;
each equals the corresponding field operation on ℚ. -/
def ratOfInt (n : ℤ) : ℚ := mkRat n 1

/-- Exact subtraction on ℚ via mkRat. -/
def ratSub (a b : ℚ) : ℚ := mkRat (a.num * (b.den : ℤ) - b.num * (a.den : ℤ)) (a.den * b.den)

/-- Exact multiplication on ℚ via mkRat. -/
def ratMul (a b : ℚ) : ℚ := mkRat (a.num * b.num) (a.den * b.den)

/-- Exact division on ℚ via mkRat (0 when the divisor is 0; the script only
divides by the constant 1000). -/
def ratDiv (a b : ℚ) : ℚ :=
  if b.num < 0 then mkRat (-(a.num * (b.den : ℤ))) (a.den * b.num.natAbs)
  else mkRat (a.num * (b.den : ℤ)) (a.den * b.num.natAbs)

/-- Python 3 round(): round half to even (used for int(round(x)) coercion
and for the sub-second part of timestamps). -/
def roundHalfEven (q : ℚ) : ℤ :=
  let f := Rat.floor q
  let r := ratSub q (ratOfInt f)
  if r < mkRat 1 2 then f
  else if mkRat 1 2 < r then f + 1
  else if f % 2 = 0 then f else f + 1

/-- Gregorian leap-year test. -/
def isLeapYear (y : ℕ) : Bool :=
  y % 4 = 0 && (y % 100 != 0 || y % 400 = 0)

/-- Length of a month. -/
def daysInMonth (y m : ℕ) : ℕ :=
  if m = 2 then (if isLeapYear y then 29 else 28)
  else if m = 4 || m = 6 || m = 9 || m = 11 then 30 else 31

/-- Domain of datetime.datetime(y, m, d): the constructor raises ValueError
outside these bounds (MINYEAR 1, MAXYEAR 9999). -/
def validYMD (y m d : ℕ) : Bool :=
  1 ≤ y && y ≤ 9999 && 1 ≤ m && m ≤ 12 && 1 ≤ d && d ≤ daysInMonth y m

/-- Proleptic Gregorian civil date from a count of days since 1970-01-01
(Hinnant's algorithm, matching CPython's timestamp arithmetic). -/
def civilFromDays (z0 : ℤ) : ℤ × ℕ × ℕ :=
  let z := z0 + 719468
  let era : ℤ := z.ediv 146097
  let doe : ℕ := (z - era * 146097).toNat
  let yoe : ℕ := (doe - doe / 1460 + doe / 36524 - doe / 146096) / 365
  let doy : ℕ := doe - (365 * yoe + yoe / 4 - yoe / 100)
  let mp : ℕ := (5 * doy + 2) / 153
  let d : ℕ := doy - (153 * mp + 2) / 5 + 1
  let m : ℕ := if mp < 10 then mp + 3 else mp - 9
  let y : ℤ := (yoe : ℤ) + era * 400 + (if m ≤ 2 then 1 else 0)
  (y, m, d)

/-- datetime.utcfromtimestamp on exact rationals: seconds since the epoch to
a naive UTC datetime; Option.none models the ValueError/OverflowError raised
when the result falls outside datetime's year range.  The sub-second part
rounds to microseconds (exact for the integral inputs the claims use). -/
def pyUtcFromTimestamp (t : ℚ) : Option PyDateTime :=
  let usTotal : ℤ := roundHalfEven (ratMul t (ratOfInt 1000000))
  let sec : ℤ := usTotal.ediv 1000000
  let us : ℕ := (usTotal.emod 1000000).toNat
  let days : ℤ := sec.ediv 86400
  let sod : ℕ := (sec.emod 86400).toNat
  let c := civilFromDays days
  if 1 ≤ c.1 ∧ c.1 ≤ 9999 then
    some ⟨c.1.toNat, c.2.1, c.2.2, sod / 3600, sod % 3600 / 60, sod % 60, us⟩
  else Option.none

/-- re.match of the strict date pattern of parse_qb_date, source line 248
(ASCII-digit model of the regex). -/
def matchStrictDate (s : String) : Option (ℕ × ℕ × ℕ) :=
  match s.toList with
  | [a, b, c, d, e, f, g, h, i, j] =>
    if a.isDigit && b.isDigit && c.isDigit && d.isDigit && e = '-' &&
       f.isDigit && g.isDigit && h = '-' && i.isDigit && j.isDigit then
      some (1000 * digitVal a + 100 * digitVal b + 10 * digitVal c + digitVal d,
            10 * digitVal f + digitVal g, 10 * digitVal i + digitVal j)
    else Option.none
  | _ => Option.none

/-- Worker of Python str.replace: non-overlapping left-to-right replacement.
Structural recursion on a fuel bound (at least the input length, so the fuel
never runs out for the caller below; fuel keeps the kernel able to evaluate
it, which well-founded recursion would block). -/
def replGo (pat rep : List Char) : ℕ → List Char → List Char
  | 0, l => l
  | _ + 1, [] => []
  | fuel + 1, c :: rest =>
    if (c :: rest).take pat.length = pat ∧ pat ≠ [] then
      rep ++ replGo pat rep fuel (rest.drop (pat.length - 1))
    else
      c :: replGo pat rep fuel rest

/-- Python str.replace (for the nonempty patterns the script uses). -/
def pyReplace (s pat rep : String) : String :=
  String.mk (replGo pat.toList rep.toList s.toList.length s.toList)

/-- Two ASCII digits. -/
def parse2dig : List Char → Option (ℕ × List Char)
  | a :: b :: t =>
    if a.isDigit && b.isDigit then some (10 * digitVal a + digitVal b, t)
    else Option.none
  | _ => Option.none

/-- Time part HH[:MM[:SS[.fff or .ffffff]]] of datetime.fromisoformat
(pre-3.11 grammar). -/
def isoTimeCore (l : List Char) : Option (ℕ × ℕ × ℕ × ℕ) :=
  match parse2dig l with
  | Option.none => Option.none
  | some (h, r) =>
    if h ≥ 24 then Option.none else
    match r with
    | [] => some (h, 0, 0, 0)
    | ':' :: r1 =>
      match parse2dig r1 with
      | Option.none => Option.none
      | some (mi, r2) =>
        if mi ≥ 60 then Option.none else
        match r2 with
        | [] => some (h, mi, 0, 0)
        | ':' :: r3 =>
          match parse2dig r3 with
          | Option.none => Option.none
          | some (se, r4) =>
            if se ≥ 60 then Option.none else
            match r4 with
            | [] => some (h, mi, se, 0)
            | '.' :: r5 =>
              if r5.length = 3 ∧ r5.all Char.isDigit then
                some (h, mi, se, 1000 * digitsToNat r5)
              else if r5.length = 6 ∧ r5.all Char.isDigit then
                some (h, mi, se, digitsToNat r5)
              else Option.none
            | _ => Option.none
        | _ => Option.none
    | _ => Option.none

/-- Split the time string at the first timezone sign character. -/
def splitAtTzSign : List Char → List Char × Option (List Char)
  | [] => ([], Option.none)
  | c :: t =>
    if c = '+' ∨ c = '-' then ([], some t)
    else
      let p := splitAtTzSign t
      (c :: p.1, p.2)

/-- Well-formedness of the tz offset tail HH:MM[:SS[.ffffff]] accepted by
pre-3.11 fromisoformat (the parsed offset itself is discarded by the script
via replace(tzinfo=None), so only acceptance matters). -/
def validTzTail (l : List Char) : Bool :=
  match parse2dig l with
  | Option.none => false
  | some (hh, r) =>
    if hh ≥ 24 then false else
    match r with
    | ':' :: r1 =>
      match parse2dig r1 with
      | Option.none => false
      | some (mm, r2) =>
        if mm ≥ 60 then false else
        match r2 with
        | [] => true
        | ':' :: r3 =>
          match parse2dig r3 with
          | Option.none => false
          | some (ss, r4) =>
            if ss ≥ 60 then false else
            match r4 with
            | [] => true
            | '.' :: r5 => r5.length = 6 && r5.all Char.isDigit
            | _ => false
        | _ => false
    | _ => false

/-- datetime.fromisoformat (pre-3.11 grammar: strict YYYY-MM-DD, optional
single separator character, HH[:MM[:SS[.fff/.ffffff]]], optional
±HH:MM[:SS[.ffffff]] offset).  Option.none models ValueError.  The script
immediately strips tzinfo, so the offset is validated but discarded. -/
def pyFromIsoformat (s : String) : Option PyDateTime :=
  match s.toList with
  | y1 :: y2 :: y3 :: y4 :: '-' :: m1 :: m2 :: '-' :: d1 :: d2 :: rest =>
    if y1.isDigit && y2.isDigit && y3.isDigit && y4.isDigit &&
       m1.isDigit && m2.isDigit && d1.isDigit && d2.isDigit then
      let y := 1000 * digitVal y1 + 100 * digitVal y2 + 10 * digitVal y3 + digitVal y4
      let mo := 10 * digitVal m1 + digitVal m2
      let d := 10 * digitVal d1 + digitVal d2
      if validYMD y mo d then
        match rest with
        | [] => some ⟨y, mo, d, 0, 0, 0, 0⟩
        | _ :: timeChars =>
          let p := splitAtTzSign timeChars
          match isoTimeCore p.1 with
          | Option.none => Option.none
          | some (h, mi, se, us) =>
            match p.2 with
            | Option.none => some ⟨y, mo, d, h, mi, se, us⟩
            | some off =>
              if validTzTail off then some ⟨y, mo, d, h, mi, se, us⟩
              else Option.none
      else Option.none
    else Option.none
  | _ => Option.none

/-- The %m field of _strptime: regex 1[0-2] | 0[1-9] | [1-9], alternatives
tried in order (no backtracking is needed against the formats used, whose
separators are never digits). -/
def parseMonthField : List Char → Option (ℕ × List Char)
  | '1' :: c :: t =>
    if '0' ≤ c && c ≤ '2' then some (10 + digitVal c, t)
    else some (1, c :: t)
  | '0' :: c :: t =>
    if '1' ≤ c && c ≤ '9' then some (digitVal c, t) else Option.none
  | c :: t =>
    if '1' ≤ c && c ≤ '9' then some (digitVal c, t) else Option.none
  | [] => Option.none

/-- The %d field of _strptime: regex 3[01] | [12]\d | 0[1-9] | [1-9]. -/
def parseDayField : List Char → Option (ℕ × List Char)
  | '3' :: c :: t =>
    if c = '0' || c = '1' then some (30 + digitVal c, t)
    else some (3, c :: t)
  | '1' :: c :: t =>
    if c.isDigit then some (10 + digitVal c, t) else some (1, c :: t)
  | '2' :: c :: t =>
    if c.isDigit then some (20 + digitVal c, t) else some (2, c :: t)
  | '0' :: c :: t =>
    if '1' ≤ c && c ≤ '9' then some (digitVal c, t) else Option.none
  | c :: t =>
    if '1' ≤ c && c ≤ '9' then some (digitVal c, t) else Option.none
  | [] => Option.none

/-- The %Y field of _strptime: exactly four digits. -/
def parseYear4 : List Char → Option (ℕ × List Char)
  | a :: b :: c :: d :: t =>
    if a.isDigit && b.isDigit && c.isDigit && d.isDigit then
      some (1000 * digitVal a + 100 * digitVal b + 10 * digitVal c + digitVal d, t)
    else Option.none
  | _ => Option.none

/-- The %y field of _strptime: exactly two digits, mapped to 2000-2068 when
at most 68 and to 1969-1999 otherwise. -/
def parseYear2 : List Char → Option (ℕ × List Char)
  | a :: b :: t =>
    if a.isDigit && b.isDigit then
      let v := 10 * digitVal a + digitVal b
      some (if v ≤ 68 then 2000 + v else 1900 + v, t)
    else Option.none
  | _ => Option.none

/-- Consume one expected literal character. -/
def expectChar (c : Char) : List Char → Option (List Char)
  | c2 :: t => if c2 = c then some t else Option.none
  | [] => Option.none

/-- strptime against a month-sep-day-sep-year format; the whole string must
be consumed and the date constructor must accept the fields (otherwise
strptime raises ValueError and the caller moves to the next format). -/
def strpMDY (sep : Char) (yearField : List Char → Option (ℕ × List Char))
    (l : List Char) : Option PyDateTime := do
  let (mo, r1) ← parseMonthField l
  let r2 ← expectChar sep r1
  let (d, r3) ← parseDayField r2
  let r4 ← expectChar sep r3
  let (y, r5) ← yearField r4
  if r5 = [] ∧ validYMD y mo d then pure ⟨y, mo, d, 0, 0, 0, 0⟩ else Option.none

/-- strptime against "%Y/%m/%d". -/
def strpYMD (l : List Char) : Option PyDateTime := do
  let (y, r1) ← parseYear4 l
  let r2 ← expectChar '/' r1
  let (mo, r3) ← parseMonthField r2
  let r4 ← expectChar '/' r3
  let (d, r5) ← parseDayField r4
  if r5 = [] ∧ validYMD y mo d then pure ⟨y, mo, d, 0, 0, 0, 0⟩ else Option.none

/-- The locale formats of parse_qb_date (source line 263), tried in the
source's fixed order: %m/%d/%Y, %m/%d/%y, %m-%d-%Y, %m-%d-%y, %Y/%m/%d. -/
def tryLocaleFormats (l : List Char) : Option PyDateTime :=
  match strpMDY '/' parseYear4 l with
  | some d => some d
  | Option.none =>
  match strpMDY '/' parseYear2 l with
  | some d => some d
  | Option.none =>
  match strpMDY '-' parseYear4 l with
  | some d => some d
  | Option.none =>
  match strpMDY '-' parseYear2 l with
  | some d => some d
  | Option.none => strpYMD l

/-- The tri-state result of parse_qb_date: absent models a Python None
return, unparseable models the UNPARSEABLE_DATE sentinel object. -/
inductive DateResult : Type where
  | absent
  | present (d : PyDateTime)
  | unparseable
deriving DecidableEq, Repr

/-- Numeric branch of parse_qb_date (source lines 271-276): values above
1e12 are taken as milliseconds, then utcfromtimestamp; any exception yields
the unparseable sentinel. -/
def epochParse (ts : ℚ) : DateResult :=
  match pyUtcFromTimestamp (if ts > 1000000000000 then ratDiv ts (ratOfInt 1000) else ts) with
  | some d => .present d
  | Option.none => .unparseable

/-- parse_qb_date (source lines 237-280).  Python booleans pass the
isinstance(val, (int, float)) test, hence the bool case. -/
def parse_qb_date : PyVal → DateResult
  | .none => .absent
  | .str v =>
    let s := pyStrip v
    if s = "" then .absent
    else if pyLower s = "<null>" ∨ pyLower s = "null" ∨ pyLower s = "none" then .absent
    else
      match matchStrictDate s with
      | some (y, mo, d) =>
        if validYMD y mo d then .present ⟨y, mo, d, 0, 0, 0, 0⟩ else .unparseable
      | Option.none =>
        match pyFromIsoformat (pyReplace s "Z" "+00:00") with
        | some d => .present d
        | Option.none =>
          match tryLocaleFormats s.toList with
          | some d => .present d
          | Option.none => .unparseable
  | .num q => epochParse q
  | .bool b => epochParse (if b then 1 else 0)
  | _ => .unparseable

/-- Python str.startswith / endswith pair used by the sanitizers: the value
is fully wrapped in angle brackets. -/
def angleWrapped (s : String) : Bool :=
  match s.toList with
  | [] => false
  | c :: t => c = '<' && ((c :: t).getLast? = some '>')

/-- normalize_qb_value, the inner helper of both update functions (source
lines 305-314 and 608-618): empty string and empty list to None, singleton
list to its element, longer lists to a comma-joined string of the non-empty
elements, everything else passed through. -/
def normalize_qb_value (v : PyVal) : PyVal :=
  if v = .none ∨ v = .str "" then .none
  else
    match v with
    | .list [] => .none
    | .list [x] => x.toVal
    | .list xs =>
      .str (String.intercalate ", "
        ((xs.filter (fun x => !(pyNoneOrEmptyStr x.toVal))).map (fun x => pyStr x.toVal)))
    | w => w

/-- sanitize_arc_text (source lines 316-327 and 620-632): normalize, then
strip strings and map the null-sentinel vocabulary (and any fully
angle-bracketed token) to None. -/
def sanitize_arc_text (v0 : PyVal) : PyVal :=
  let v := normalize_qb_value v0
  match v with
  | .none => .none
  | .str s0 =>
    let s := pyStrip s0
    if pyLower s = "<null>" ∨ pyLower s = "null" ∨ pyLower s = "none" ∨ pyLower s = "n/a" then .none
    else if angleWrapped s then .none
    else .str s
  | w => w

/-- Python float() on a string: optional sign, decimal digits with optional
fraction and exponent.  Inf/nan tokens and digit-group underscores are not
modelled (no modelled code path feeds them).  Option.none models ValueError. -/
def pyFloatOfString (s : String) : Option ℚ :=
  let l0 := stripChars s.toList
  let sgn : ℤ := match l0 with
    | '-' :: _ => -1
    | _ => 1
  let l1 : List Char := match l0 with
    | '-' :: t => t
    | '+' :: t => t
    | t => t
  let ip := l1.takeWhile Char.isDigit
  let r1 := l1.dropWhile Char.isDigit
  match r1 with
  | '.' :: t =>
    let fp := t.takeWhile Char.isDigit
    let r2 := t.dropWhile Char.isDigit
    if ip = [] ∧ fp = [] then Option.none else pyFloatTail sgn ip fp r2
  | _ => if ip = [] then Option.none else pyFloatTail sgn ip [] r1
where
  pyFloatTail (sgn : ℤ) (ip fp rest : List Char) : Option ℚ :=
    match rest with
    | [] => some (pyFloatValue sgn ip fp 0)
    | e :: t =>
      if e = 'e' ∨ e = 'E' then
        let esgn : ℤ := match t with
          | '-' :: _ => -1
          | _ => 1
        let t1 : List Char := match t with
          | '-' :: r => r
          | '+' :: r => r
          | r => r
        let ed := t1.takeWhile Char.isDigit
        if ed = [] ∨ t1.dropWhile Char.isDigit ≠ [] then Option.none
        else some (pyFloatValue sgn ip fp (esgn * (digitsToNat ed : ℤ)))
      else Option.none
  pyFloatValue (sgn : ℤ) (ip fp : List Char) (e : ℤ) : ℚ :=
    let mant : ℤ := (digitsToNat (ip ++ fp) : ℤ)
    let ex : ℤ := e - (fp.length : ℤ)
    if 0 ≤ ex then ratOfInt (sgn * mant * (10 : ℤ) ^ ex.toNat)
    else mkRat (sgn * mant) ((10 : ℕ) ^ (-ex).toNat)

/-- Python float() on the values the script coerces; Option.none models the
TypeError/ValueError that coerce_number catches. -/
def pyFloat : PyVal → Option ℚ
  | .num q => some q
  | .bool b => some (if b then 1 else 0)
  | .str s => pyFloatOfString s
  | _ => Option.none

/-- coerce_number, the inner helper of both update functions (source lines
329-336 and 634-642). -/
def coerce_number (v0 : PyVal) : Option ℚ :=
  let v := normalize_qb_value v0
  if v = .none ∨ v = .str "" then Option.none
  else pyFloat v

/-- qb_checkbox_value (source lines 579-585). -/
def qb_checkbox_value (v : PyVal) : Bool :=
  match v with
  | .none => false
  | .bool b => b
  | w =>
    let s := pyLower (pyStrip (pyStr w))
    if s = "1" ∨ s = "true" ∨ s = "yes" ∨ s = "y" ∨ s = "checked" then true else false

/-- The process-wide METRICS counters the modelled code paths touch
(source: defaultdict at line 104; each field defaults to 0). -/
structure Metrics where
  errors : ℕ := 0
  fdh_arc_features : ℕ := 0
  fdh_skipped_no_id : ℕ := 0
  fdh_skipped_no_qb_match : ℕ := 0
  fdh_skipped_no_oid : ℕ := 0
  fdh_cx_set : ℕ := 0
  fdh_cx_cleared : ℕ := 0
  fdh_cx_unparseable : ℕ := 0
  fdh_cx_clear_noop : ℕ := 0
  fdh_ofs_set : ℕ := 0
  fdh_ofs_cleared : ℕ := 0
  fdh_ofs_unparseable : ℕ := 0
  fdh_ofs_clear_noop : ℕ := 0
  fdh_no_changes : ℕ := 0
  fdh_updates_prepared : ℕ := 0
  fdh_updated_ok : ℕ := 0
  fdh_updated_failed : ℕ := 0
  mdu_no_changes : ℕ := 0
  mdu_updates_prepared : ℕ := 0
  mdu_updated_ok : ℕ := 0
  mdu_updated_failed : ℕ := 0
deriving DecidableEq, Repr

/-- FIELD_MAPPING (source lines 43-51), in insertion order, as iterated via
QB_TO_ARC_FIELDS. -/
def FIELD_MAPPING : List (String × String) :=
  [("OFS Date", "OFS_Date"), ("CX Start Date", "CX_Date"),
   ("Project Number", "ProjectNum"), ("City ID", "City_Code"),
   ("CX Vendor", "Const_Ven"), ("FDH Status", "projectpha"),
   ("PM", "Market_Lead")]

/-- MDU_FIELD_MAPPING (source lines 72-80), in insertion order. -/
def MDU_FIELD_MAPPING : List (String × String) :=
  [("MDU ID", "MDU_id"), ("Property Name", "PropertyNam"),
   ("Base MAK", "BaseMAK"), ("ROE Date", "ROEDate"), ("ROE?", "ROESigned"),
   ("Management Company", "MgmtCompany"), ("Status", "projectpha")]

/-- One row of the QB-index build (source lines 294-300 and 597-603): skip
rows whose key is None or stringifies/strips to empty, else index the row
under its normalized key (replacing any earlier row — last wins). -/
def buildLookupStep (keyField : String) (acc : List (String × Attrs))
    (r : Attrs) : List (String × Attrs) :=
  match dictGet r keyField with
  | .none => acc
  | v =>
    let k := pyStrip (pyStr v)
    if k = "" then acc else assocSet acc k r

/-- The QB-row index by business key (source lines 292-300 and 595-603). -/
def buildLookup (keyField : String) (rows : List Attrs) : List (String × Attrs) :=
  rows.foldl (buildLookupStep keyField) []

/-- layer field-type lookup arc_field_types.get (source lines 303, 606);
the empty string stands for Python None (none of the esri type tags is
empty, so the comparisons below are unaffected). -/
def arcTypeOf (types : List (String × String)) (arc : String) : String :=
  (lookupStr types arc).getD ""

/-- Integer-typed target attribute? (source lines 422, 715). -/
def isIntType (t : String) : Bool :=
  t = "esriFieldTypeInteger" || t = "esriFieldTypeSmallInteger"

/-- Floating-point-typed target attribute? (source lines 430, 722). -/
def isFloatType (t : String) : Bool :=
  t = "esriFieldTypeDouble" || t = "esriFieldTypeSingle"

/-- Attribute writes of one iteration of the FDH field loop (source lines
370-440).  The loop body only reads the accumulated metrics and the payload
dict independently, so it is split into this write part and the metric part
below. -/
def fdhFieldWrite (types : List (String × String)) (rec feat : Attrs)
    (o : Attrs) (e : String × String) : Attrs :=
  let qbLabel := e.1
  let arcField := e.2
  let raw := sanitize_arc_text (dictGet rec qbLabel)
  if arcField = "CX_Date" ∨ arcField = "OFS_Date" then
    match parse_qb_date (dictGet rec qbLabel) with
    | .absent =>
      if pyEmptyZero (dictGet feat arcField) then o
      else assocSet o arcField .none
    | .unparseable => o
    | .present d => assocSet o arcField (.date d)
  else
    let t := arcTypeOf types arcField
    if isIntType t then
      match coerce_number raw with
      | Option.none => o
      | some q => assocSet o arcField (.num (ratOfInt (roundHalfEven q)))
    else if isFloatType t then
      match coerce_number raw with
      | Option.none => o
      | some q => assocSet o arcField (.num q)
    else if raw = .none ∨ raw = .str "" then o
    else assocSet o arcField raw

/-- Metric bumps of one iteration of the FDH field loop (only the date
branch touches METRICS; source lines 379-415). -/
def fdhFieldMetric (rec feat : Attrs) (m : Metrics) (e : String × String) : Metrics :=
  let qbLabel := e.1
  let arcField := e.2
  if arcField = "CX_Date" ∨ arcField = "OFS_Date" then
    match parse_qb_date (dictGet rec qbLabel) with
    | .absent =>
      if pyEmptyZero (dictGet feat arcField) then
        if arcField = "CX_Date" then { m with fdh_cx_clear_noop := m.fdh_cx_clear_noop + 1 }
        else { m with fdh_ofs_clear_noop := m.fdh_ofs_clear_noop + 1 }
      else
        if arcField = "CX_Date" then { m with fdh_cx_cleared := m.fdh_cx_cleared + 1 }
        else { m with fdh_ofs_cleared := m.fdh_ofs_cleared + 1 }
    | .unparseable =>
      if arcField = "CX_Date" then { m with fdh_cx_unparseable := m.fdh_cx_unparseable + 1 }
      else { m with fdh_ofs_unparseable := m.fdh_ofs_unparseable + 1 }
    | .present _ =>
      if arcField = "CX_Date" then { m with fdh_cx_set := m.fdh_cx_set + 1 }
      else { m with fdh_ofs_set := m.fdh_ofs_set + 1 }
  else m

/-- The initial FDH payload dict {OBJECTID, FDH_ID echo} (source line 368). -/
def fdhInitAttrs (oid : PyVal) (recId : String) : Attrs :=
  [("OBJECTID", oid), ("FDH_ID", .str recId)]

/-- The full FDH payload dict for one matched feature (field loop, source
lines 370-440). -/
def fdhOutAttrs (types : List (String × String)) (rec feat : Attrs)
    (oid : PyVal) (recId : String) : Attrs :=
  FIELD_MAPPING.foldl (fdhFieldWrite types rec feat) (fdhInitAttrs oid recId)

/-- Metrics accumulated by the FDH field loop for one matched feature. -/
def fdhFeatMetrics (rec feat : Attrs) (m : Metrics) : Metrics :=
  FIELD_MAPPING.foldl (fdhFieldMetric rec feat) m

/-- Payload produced for one FDH feature, Option.none when the feature is
skipped or the payload is dropped as OBJECTID+FDH_ID only (source lines
347-452). -/
def fdhFeatPayload (types : List (String × String))
    (lookup : List (String × Attrs)) (feat : Attrs) : Option Attrs :=
  let recId0 := dictGet feat "FDH_ID"
  if !pyTruthy recId0 then Option.none
  else
    let recId := pyStrip (pyStr recId0)
    match lookupStr lookup recId with
    | Option.none => Option.none
    | some rec =>
      if rec = [] then Option.none
      else
        let oid := dictGet feat "OBJECTID"
        if oid = .none then Option.none
        else
          let out := fdhOutAttrs types rec feat oid recId
          if out.length > 2 then some out else Option.none

/-- One iteration of the FDH feature loop with its metric bumps (source
lines 347-452); `if not record` also treats an empty dict as no match. -/
def fdhProcessFeature (types : List (String × String))
    (lookup : List (String × Attrs)) (acc : Metrics × List Attrs)
    (feat : Attrs) : Metrics × List Attrs :=
  let m := acc.1
  let ups := acc.2
  let recId0 := dictGet feat "FDH_ID"
  if !pyTruthy recId0 then
    ({ m with fdh_skipped_no_id := m.fdh_skipped_no_id + 1 }, ups)
  else
    let recId := pyStrip (pyStr recId0)
    match lookupStr lookup recId with
    | Option.none =>
      ({ m with fdh_skipped_no_qb_match := m.fdh_skipped_no_qb_match + 1 }, ups)
    | some rec =>
      if rec = [] then
        ({ m with fdh_skipped_no_qb_match := m.fdh_skipped_no_qb_match + 1 }, ups)
      else
        let oid := dictGet feat "OBJECTID"
        if oid = .none then
          ({ m with fdh_skipped_no_oid := m.fdh_skipped_no_oid + 1 }, ups)
        else
          let out := fdhOutAttrs types rec feat oid recId
          let m2 := fdhFeatMetrics rec feat m
          if out.length > 2 then (m2, ups ++ [out])
          else ({ m2 with fdh_no_changes := m2.fdh_no_changes + 1 }, ups)

/-- Payload-preparation phase of update_arcgis_from_qb (source lines
283-459): build the QB index, walk the features, record
fdh_arc_features and fdh_updates_prepared. -/
def update_arcgis_prepare (types : List (String × String))
    (qb_data features : List Attrs) (m0 : Metrics) : Metrics × List Attrs :=
  let lookup := buildLookup "FDH_ID_QB" qb_data
  let m1 := { m0 with fdh_arc_features := features.length }
  let r := features.foldl (fdhProcessFeature types lookup) (m1, [])
  ({ r.1 with fdh_updates_prepared := r.2.length }, r.2)

/-- The remote feature store as an oracle: argument one is the index of the
edit_features call (0-based, in call order), argument two the submitted
payload list; Option.none models a raised exception, some flags the
per-item success flags of resp.updateResults. -/
abbrev Store := ℕ → List Attrs → Option (List Bool)

/-- Trace entry of the FDH apply loop: one bulk call, either answered
(with its per-item results) or raising, in which case every item of the
chunk is retried alone (paired with whether its singleton call raised). -/
inductive FdhEvent : Type where
  | bulkOk (chunk : List Attrs) (results : List Bool)
  | bulkExn (chunk : List Attrs) (singles : List (Attrs × Bool))
deriving DecidableEq

/-- The chunk a trace entry submitted. -/
def FdhEvent.chunkOf : FdhEvent → List Attrs
  | .bulkOk c _ => c
  | .bulkExn c _ => c

/-- Fixed-size chunking worker (fuel-driven so the kernel can evaluate it;
the caller passes the list length, which suffices since every step consumes
at least one element). -/
def chunksGo {α : Type} (bs : ℕ) : ℕ → List α → List (List α)
  | 0, _ => []
  | _ + 1, [] => []
  | fuel + 1, c :: t => (c :: t).take bs :: chunksGo bs fuel ((c :: t).drop bs)

/-- The batching of `for i in range(0, len(updates), batch_size)` (source
lines 468-469 and 749-750); meaningful for batch_size > 0 (Python raises
ValueError on a zero step). -/
def chunksList {α : Type} (bs : ℕ) (l : List α) : List (List α) :=
  if bs = 0 then [] else chunksGo bs l.length l

/-- The FDH one-by-one fallback loop (source lines 490-508): each singleton
failure bumps fdh_updated_failed and errors; responses of successful
singleton calls are ignored. -/
def fdhSingles (store : Store) : ℕ → Metrics → List Attrs → ℕ × Metrics × List (Attrs × Bool)
  | n, m, [] => (n, m, [])
  | n, m, u :: rest =>
    match store n [u] with
    | some _ =>
      let r := fdhSingles store (n + 1) m rest
      (r.1, r.2.1, (u, false) :: r.2.2)
    | Option.none =>
      let m2 := { m with fdh_updated_failed := m.fdh_updated_failed + 1,
                         errors := m.errors + 1 }
      let r := fdhSingles store (n + 1) m2 rest
      (r.1, r.2.1, (u, true) :: r.2.2)

/-- One FDH batch (source lines 468-508): on response, tally per-item
outcomes; on exception, count the whole chunk failed and fall back to
singleton calls. -/
def fdhApplyChunk (store : Store) (st : ℕ × Metrics × List FdhEvent)
    (chunk : List Attrs) : ℕ × Metrics × List FdhEvent :=
  let n := st.1
  let m := st.2.1
  let evs := st.2.2
  match store n chunk with
  | some results =>
    let ok := results.count true
    let bad := results.length - ok
    (n + 1,
     { m with fdh_updated_ok := m.fdh_updated_ok + ok,
              fdh_updated_failed := m.fdh_updated_failed + bad,
              errors := m.errors + bad },
     evs ++ [.bulkOk chunk results])
  | Option.none =>
    let m1 := { m with fdh_updated_failed := m.fdh_updated_failed + chunk.length,
                       errors := m.errors + chunk.length }
    let r := fdhSingles store (n + 1) m1 chunk
    (r.1, r.2.1, evs ++ [.bulkExn chunk r.2.2])

/-- Apply phase of update_arcgis_from_qb (source lines 461-508). -/
def update_arcgis_apply (store : Store) (updates : List Attrs) (bs : ℕ)
    (m0 : Metrics) : Metrics × List FdhEvent :=
  let r := (chunksList bs updates).foldl (fdhApplyChunk store) (0, m0, [])
  (r.2.1, r.2.2)

/-- update_arcgis_from_qb in full (source lines 283-508): prepare the
minimal payloads, then push them batch-wise against the store. -/
def update_arcgis_from_qb (store : Store) (types : List (String × String))
    (qb_data features : List Attrs) (bs : ℕ) (m0 : Metrics) :
    Metrics × List Attrs × List FdhEvent :=
  let p := update_arcgis_prepare types qb_data features m0
  let a := update_arcgis_apply store p.2 bs p.1
  (a.1, p.2, a.2)

/-- Attribute writes of one iteration of the MDU field loop (source lines
691-731); note the date branch parses the sanitized value and clears
unconditionally. -/
def mduFieldWrite (types : List (String × String)) (rec : Attrs)
    (o : Attrs) (e : String × String) : Attrs :=
  let qbLabel := e.1
  let arcField := e.2
  let raw := sanitize_arc_text (dictGet rec qbLabel)
  if qbLabel = "ROE?" then
    assocSet o arcField (.str (if qb_checkbox_value raw then "Y" else "N"))
  else if qbLabel = "ROE Date" then
    match parse_qb_date raw with
    | .absent => assocSet o arcField .none
    | .unparseable => o
    | .present d => assocSet o arcField (.date d)
  else
    let t := arcTypeOf types arcField
    if isIntType t then
      match coerce_number raw with
      | Option.none => o
      | some q => assocSet o arcField (.num (ratOfInt (roundHalfEven q)))
    else if isFloatType t then
      match coerce_number raw with
      | Option.none => o
      | some q => assocSet o arcField (.num q)
    else if raw = .none ∨ raw = .str "" then o
    else assocSet o arcField raw

/-- Metric bump of one iteration of the MDU field loop: an unparseable ROE
Date bumps the process-wide errors counter (source line 705). -/
def mduFieldMetric (rec : Attrs) (m : Metrics) (e : String × String) : Metrics :=
  if e.1 = "ROE?" then m
  else if e.1 = "ROE Date" then
    match parse_qb_date (sanitize_arc_text (dictGet rec e.1)) with
    | .unparseable => { m with errors := m.errors + 1 }
    | _ => m
  else m

/-- The full MDU payload dict for one matched feature (source lines
689-731). -/
def mduOutAttrs (types : List (String × String)) (rec : Attrs)
    (oid : PyVal) : Attrs :=
  MDU_FIELD_MAPPING.foldl (mduFieldWrite types rec) [("OBJECTID", oid)]

/-- Metrics accumulated by the MDU field loop for one matched feature. -/
def mduFeatMetrics (rec : Attrs) (m : Metrics) : Metrics :=
  MDU_FIELD_MAPPING.foldl (mduFieldMetric rec) m

/-- Payload produced for one MDU feature, Option.none when skipped or when
nothing beyond OBJECTID was collected (source lines 671-737). -/
def mduFeatPayload (types : List (String × String))
    (lookup : List (String × Attrs)) (feat : Attrs) : Option Attrs :=
  let oid := dictGet feat "OBJECTID"
  if oid = .none then Option.none
  else
    let mduId0 := dictGet feat "MDU_id"
    if !pyTruthy mduId0 then Option.none
    else
      let mduId := pyStrip (pyStr mduId0)
      match lookupStr lookup mduId with
      | Option.none => Option.none
      | some rec =>
        if rec = [] then Option.none
        else
          let out := mduOutAttrs types rec oid
          if out.length > 1 then some out else Option.none

/-- One iteration of the MDU feature loop with its metric bumps (source
lines 671-737). -/
def mduProcessFeature (types : List (String × String))
    (lookup : List (String × Attrs)) (acc : Metrics × List Attrs)
    (feat : Attrs) : Metrics × List Attrs :=
  let m := acc.1
  let ups := acc.2
  let oid := dictGet feat "OBJECTID"
  if oid = .none then (m, ups)
  else
    let mduId0 := dictGet feat "MDU_id"
    if !pyTruthy mduId0 then (m, ups)
    else
      let mduId := pyStrip (pyStr mduId0)
      match lookupStr lookup mduId with
      | Option.none => (m, ups)
      | some rec =>
        if rec = [] then (m, ups)
        else
          let out := mduOutAttrs types rec oid
          let m2 := mduFeatMetrics rec m
          if out.length > 1 then (m2, ups ++ [out])
          else ({ m2 with mdu_no_changes := m2.mdu_no_changes + 1 }, ups)

/-- Payload-preparation phase of update_mdu_arcgis_from_qb (source lines
588-742). -/
def update_mdu_prepare (types : List (String × String))
    (qb_rows features : List Attrs) (m0 : Metrics) : Metrics × List Attrs :=
  let lookup := buildLookup "MDU ID" qb_rows
  let r := features.foldl (mduProcessFeature types lookup) (m0, [])
  ({ r.1 with mdu_updates_prepared := r.2.length }, r.2)

/-- apply_updates' response accounting (source lines 644-662). -/
def mduApplyCall (results : List Bool) (m : Metrics) : Metrics :=
  let ok := results.count true
  let bad := results.length - ok
  { m with mdu_updated_ok := m.mdu_updated_ok + ok,
           mdu_updated_failed := m.mdu_updated_failed + bad,
           errors := m.errors + bad }

/-- The MDU one-by-one fallback (source lines 756-762): singleton responses
go through apply_updates' accounting, singleton exceptions are only logged. -/
def mduSingles (store : Store) : ℕ → Metrics → List Attrs → ℕ × Metrics
  | n, m, [] => (n, m)
  | n, m, u :: rest =>
    match store n [u] with
    | some results => mduSingles store (n + 1) (mduApplyCall results m) rest
    | Option.none => mduSingles store (n + 1) m rest

/-- One MDU batch (source lines 749-762): a raising bulk call bumps no
counter itself and falls back to singleton calls. -/
def mduApplyChunk (store : Store) (st : ℕ × Metrics) (chunk : List Attrs) :
    ℕ × Metrics :=
  match store st.1 chunk with
  | some results => (st.1 + 1, mduApplyCall results st.2)
  | Option.none => mduSingles store (st.1 + 1) st.2 chunk

/-- Apply phase of update_mdu_arcgis_from_qb (source lines 744-762). -/
def update_mdu_apply (store : Store) (updates : List Attrs) (bs : ℕ)
    (m0 : Metrics) : Metrics :=
  ((chunksList bs updates).foldl (mduApplyChunk store) (0, m0)).2

/-- update_mdu_arcgis_from_qb in full (source lines 588-762). -/
def update_mdu_arcgis_from_qb (store : Store) (types : List (String × String))
    (qb_rows features : List Attrs) (bs : ℕ) (m0 : Metrics) :
    Metrics × List Attrs :=
  let p := update_mdu_prepare types qb_rows features m0
  (update_mdu_apply store p.2 bs p.1, p.2)

/-- The status field of emit_pad_summary (source line 121). -/
def pad_summary_status (m : Metrics) : String :=
  if m.errors = 0 then "OK" else "WARN"

/-- Outcome of the whole process. -/
inductive ProcResult : Type where
  | finished (status : String)
  | crashed
deriving DecidableEq

/-- Control flow of main after authentication (source lines 792-806): an
FDH exception is caught and logged and the run continues; an MDU exception
is re-raised and the process dies before emitting the summary; otherwise
the summary is emitted from the final metrics. -/
def main_tail (_fdhRaises mduRaises : Bool) (finalMetrics : Metrics) : ProcResult :=
  if mduRaises then .crashed else .finished (pad_summary_status finalMetrics)

/-- Application of one payload's attribute deltas to a feature's attribute
dict (the store's documented applyEdits semantics for matching OBJECTIDs). -/
def applyAttrsTo (feat p : Attrs) : Attrs :=
  p.foldl (fun f kv => assocSet f kv.1 kv.2) feat

/-- Application of one payload to one feature: only a matching OBJECTID is
updated. -/
def applyUpd (feat p : Attrs) : Attrs :=
  if dictGet p "OBJECTID" = dictGet feat "OBJECTID" then applyAttrsTo feat p
  else feat

/-- Application of a payload list to a feature list (the observable effect
of a fully successful run of the batch executor). -/
def applyUpdates (feats ups : List Attrs) : List Attrs :=
  feats.map (fun f => ups.foldl applyUpd f)

/-- Evaluation of an optional per-feature payload: some applies its
attribute deltas, none leaves the feature untouched. -/
def applyOptP (f : Attrs) : Option Attrs → Attrs
  | some p => applyAttrsTo f p
  | Option.none => f

/-- The value one FDH field-loop iteration writes under its arc key, if any
(characterization of fdhFieldWrite used by the idempotence proofs; the tie
to fdhFieldWrite is the theorem fdhFieldWrite_eff below). -/
def fdhFieldEff (t : List (String × String)) (rec feat : Attrs)
    (e : String × String) : Option PyVal :=
  let qbLabel := e.1
  let arcField := e.2
  let raw := sanitize_arc_text (dictGet rec qbLabel)
  if arcField = "CX_Date" ∨ arcField = "OFS_Date" then
    match parse_qb_date (dictGet rec qbLabel) with
    | .absent =>
      if pyEmptyZero (dictGet feat arcField) then Option.none else some PyVal.none
    | .unparseable => Option.none
    | .present d => some (PyVal.date d)
  else
    let ty := arcTypeOf t arcField
    if isIntType ty then
      match coerce_number raw with
      | Option.none => Option.none
      | some q => some (PyVal.num (ratOfInt (roundHalfEven q)))
    else if isFloatType ty then
      match coerce_number raw with
      | Option.none => Option.none
      | some q => some (PyVal.num q)
    else if raw = PyVal.none ∨ raw = PyVal.str "" then Option.none
    else some raw

/-- The value one MDU field-loop iteration writes under its arc key, if any
(characterization of mduFieldWrite; note it never reads the feature). -/
def mduFieldEff (t : List (String × String)) (rec : Attrs)
    (e : String × String) : Option PyVal :=
  let qbLabel := e.1
  let raw := sanitize_arc_text (dictGet rec qbLabel)
  if qbLabel = "ROE?" then
    some (.str (if qb_checkbox_value raw then "Y" else "N"))
  else if qbLabel = "ROE Date" then
    match parse_qb_date raw with
    | .absent => some PyVal.none
    | .unparseable => Option.none
    | .present d => some (PyVal.date d)
  else
    let ty := arcTypeOf t e.2
    if isIntType ty then
      match coerce_number raw with
      | Option.none => Option.none
      | some q => some (PyVal.num (ratOfInt (roundHalfEven q)))
    else if isFloatType ty then
      match coerce_number raw with
      | Option.none => Option.none
      | some q => some (PyVal.num q)
    else if raw = PyVal.none ∨ raw = PyVal.str "" then Option.none
    else some raw

example : parse_qb_date (.str "2024-03-15") = .present ⟨2024, 3, 15, 0, 0, 0, 0⟩ := by decide
example : parse_qb_date (.str "02/30/2024") = .unparseable := by decide
example : parse_qb_date (.str "01/02/2020") = .present ⟨2020, 1, 2, 0, 0, 0, 0⟩ := by decide
example : parse_qb_date (.num 1700000000) = .present ⟨2023, 11, 14, 22, 13, 20, 0⟩ := by decide
example : parse_qb_date (.num 1700000000000) = .present ⟨2023, 11, 14, 22, 13, 20, 0⟩ := by decide
example : parse_qb_date (.str "n/a") = .unparseable := by decide
example : parse_qb_date (.str " <NULL> ") = .absent := by decide
example : parse_qb_date (.str "2024-01-02T03:04:05Z") = .present ⟨2024, 1, 2, 3, 4, 5, 0⟩ := by decide

/-- C3 (counterexample): the claim says parse_qb_date classifies `n/a` and
any angle-bracket-wrapped string as Absent; on the code both fall through
every date format and come back Unparseable (the wider vocabulary lives in
fetch_quickbase_records and sanitize_arc_text, not in parse_qb_date). -/
theorem C3_counterexample :
    parse_qb_date (.str "n/a") = .unparseable ∧
    parse_qb_date (.str "N/A") = .unparseable ∧
    parse_qb_date (.str " <Empty> ") = .unparseable := by
  decide

/-- C3 (amended): parse_qb_date's own null-sentinel vocabulary is exactly
`<null>`, `null`, `none` — any string whose stripped, lowercased form is one
of those three is classified Absent; `n/a` and generic angle-bracket strings
are not recognized by parse_qb_date. -/
theorem C3_sentinel_vocabulary : ∀ s : String,
    (pyLower (pyStrip s) = "<null>" ∨ pyLower (pyStrip s) = "null" ∨
     pyLower (pyStrip s) = "none") →
    parse_qb_date (.str s) = .absent := by
  intro s h
  unfold parse_qb_date
  by_cases hs : pyStrip s = "" <;> simp [hs, h]

/-- C3 (witness): the amended vocabulary theorem at the concrete input
" NULL ". -/
theorem C3_witness :
    (pyLower (pyStrip " NULL ") = "<null>" ∨ pyLower (pyStrip " NULL ") = "null" ∨
     pyLower (pyStrip " NULL ") = "none") ∧
    parse_qb_date (.str " NULL ") = .absent :=
  ⟨by decide, C3_sentinel_vocabulary " NULL " (by decide)⟩

/-- C5 (counterexample): the claim predicts that every numeric value of
magnitude above 1e12 is divided by 1000 — for -2e12 that route would give
the valid instant 1906-08-16 20:26:40; the code compares the signed value
(ts > 1e12), treats -2e12 as seconds, and utcfromtimestamp overflows, so
parse_qb_date returns Unparseable instead. -/
theorem C5_counterexample :
    parse_qb_date (.num (-2000000000000)) = .unparseable ∧
    pyUtcFromTimestamp (ratDiv (-2000000000000) (ratOfInt 1000)) =
      some ⟨1906, 8, 16, 20, 26, 40, 0⟩ := by
  decide

/-- C5 (amended): parse_qb_date treats a numeric value as
milliseconds-since-epoch exactly when the signed value exceeds 1e12 (not its
magnitude), as seconds otherwise, converting through utcfromtimestamp; the
epoch values 1700000000 and 1700000000000 parse to the same instant. -/
theorem C5_epoch_threshold :
    (∀ q : ℚ, 1000000000000 < q →
      parse_qb_date (.num q) =
        (match pyUtcFromTimestamp (ratDiv q (ratOfInt 1000)) with
         | some d => DateResult.present d
         | Option.none => DateResult.unparseable)) ∧
    (∀ q : ℚ, ¬ 1000000000000 < q →
      parse_qb_date (.num q) =
        (match pyUtcFromTimestamp q with
         | some d => DateResult.present d
         | Option.none => DateResult.unparseable)) ∧
    parse_qb_date (.num 1700000000) = parse_qb_date (.num 1700000000000) ∧
    parse_qb_date (.num 1700000000) = .present ⟨2023, 11, 14, 22, 13, 20, 0⟩ := by
  refine ⟨?_, ?_, by decide, by decide⟩
  · intro q h
    show epochParse q = _
    unfold epochParse
    rw [if_pos h]
  · intro q h
    show epochParse q = _
    unfold epochParse
    rw [if_neg h]

/-- C5 (witness): the threshold halves of the amended theorem at the
concrete inputs 1700000000000 (milliseconds route) and 5 (seconds route). -/
theorem C5_witness :
    parse_qb_date (.num 1700000000000) =
      (match pyUtcFromTimestamp (ratDiv 1700000000000 (ratOfInt 1000)) with
       | some d => DateResult.present d
       | Option.none => DateResult.unparseable) ∧
    parse_qb_date (.num 5) =
      (match pyUtcFromTimestamp 5 with
       | some d => DateResult.present d
       | Option.none => DateResult.unparseable) :=
  ⟨C5_epoch_threshold.1 1700000000000 (by decide),
   C5_epoch_threshold.2.1 5 (by decide)⟩

/-- C8: the run summary's status is OK exactly when the errors counter is
zero and WARN otherwise; with no MDU exception the process finishes (and
emits that status) whatever the error count, and only an MDU-sync exception
crashes it. -/
theorem C8_summary_status :
    (∀ m : Metrics,
      (pad_summary_status m = "OK" ↔ m.errors = 0) ∧
      (pad_summary_status m = "WARN" ↔ m.errors ≠ 0)) ∧
    (∀ f : Bool, ∀ m : Metrics,
      main_tail f false m = .finished (pad_summary_status m) ∧
      main_tail f false m ≠ .crashed) ∧
    (∀ f : Bool, ∀ m : Metrics, main_tail f true m = .crashed) := by
  refine ⟨?_, ?_, fun f m => rfl⟩
  · intro m
    unfold pad_summary_status
    by_cases h : m.errors = 0
    · rw [if_pos h]
      exact ⟨⟨fun _ => h, fun _ => rfl⟩,
             ⟨fun he => absurd he (by decide), fun hne => absurd h hne⟩⟩
    · rw [if_neg h]
      exact ⟨⟨fun he => absurd he (by decide), fun h0 => absurd h0 h⟩,
             ⟨fun _ => h, fun _ => rfl⟩⟩
  · intro f m
    exact ⟨rfl, fun hc => ProcResult.noConfusion hc⟩

/-- A string matched by the strict YYYY-MM-DD pattern has exactly ten
characters. -/
theorem matchStrict_length {s : String} {r : ℕ × ℕ × ℕ}
    (h : matchStrictDate s = some r) : s.toList.length = 10 := by
  unfold matchStrictDate at h
  split at h
  · next a b c d e f g hh i j heq => rw [heq]; rfl
  · exact Option.noConfusion h

/-- C4: a strict-pattern string with an invalid calendar date parses
Unparseable (never silently corrected); on strings past the sentinel and
strict-pattern stages, the full ISO-8601 parse is attempted before the
locale formats, and the locale formats decide in the fixed order %m/%d/%Y,
%m/%d/%y, %m-%d-%Y, %m-%d-%y, %Y/%m/%d — the earliest matching form wins. -/
theorem C4_parse_precedence :
    (∀ s : String, ∀ y mo d : ℕ,
      matchStrictDate (pyStrip s) = some (y, mo, d) → validYMD y mo d = false →
      parse_qb_date (.str s) = .unparseable) ∧
    (∀ s : String, ∀ d : PyDateTime, pyStrip s ≠ "" →
      ¬(pyLower (pyStrip s) = "<null>" ∨ pyLower (pyStrip s) = "null" ∨
        pyLower (pyStrip s) = "none") →
      matchStrictDate (pyStrip s) = Option.none →
      pyFromIsoformat (pyReplace (pyStrip s) "Z" "+00:00") = some d →
      parse_qb_date (.str s) = .present d) ∧
    (∀ s : String, pyStrip s ≠ "" →
      ¬(pyLower (pyStrip s) = "<null>" ∨ pyLower (pyStrip s) = "null" ∨
        pyLower (pyStrip s) = "none") →
      matchStrictDate (pyStrip s) = Option.none →
      pyFromIsoformat (pyReplace (pyStrip s) "Z" "+00:00") = Option.none →
      parse_qb_date (.str s) =
        (match tryLocaleFormats (pyStrip s).toList with
         | some d2 => DateResult.present d2
         | Option.none => DateResult.unparseable)) ∧
    (∀ l : List Char, ∀ d : PyDateTime,
      strpMDY '/' parseYear4 l = some d → tryLocaleFormats l = some d) ∧
    (∀ l : List Char, ∀ d : PyDateTime, strpMDY '/' parseYear4 l = Option.none →
      strpMDY '/' parseYear2 l = some d → tryLocaleFormats l = some d) ∧
    (∀ l : List Char, ∀ d : PyDateTime, strpMDY '/' parseYear4 l = Option.none →
      strpMDY '/' parseYear2 l = Option.none →
      strpMDY '-' parseYear4 l = some d → tryLocaleFormats l = some d) ∧
    (∀ l : List Char, ∀ d : PyDateTime, strpMDY '/' parseYear4 l = Option.none →
      strpMDY '/' parseYear2 l = Option.none → strpMDY '-' parseYear4 l = Option.none →
      strpMDY '-' parseYear2 l = some d → tryLocaleFormats l = some d) ∧
    (∀ l : List Char, strpMDY '/' parseYear4 l = Option.none →
      strpMDY '/' parseYear2 l = Option.none → strpMDY '-' parseYear4 l = Option.none →
      strpMDY '-' parseYear2 l = Option.none → tryLocaleFormats l = strpYMD l) := by
  refine ⟨?_, ?_, ?_, ?_, ?_, ?_, ?_, ?_⟩
  · intro s y mo d hm hv
    have hlen : (pyStrip s).toList.length = 10 := matchStrict_length hm
    have hne : pyStrip s ≠ "" := by
      intro h0
      rw [h0] at hlen
      exact absurd hlen (by decide)
    have hsent : ¬(pyLower (pyStrip s) = "<null>" ∨ pyLower (pyStrip s) = "null" ∨
        pyLower (pyStrip s) = "none") := by
      intro hc
      have hl : (pyLower (pyStrip s)).toList.length = 10 := by
        show ((pyStrip s).toList.map Char.toLower).length = 10
        rw [List.length_map]
        exact hlen
      rcases hc with hc | hc | hc <;> rw [hc] at hl <;> exact absurd hl (by decide)
    simp only [parse_qb_date]
    rw [if_neg hne, if_neg hsent, hm]
    simp [hv]
  · intro s d hne hsent hstrict hiso
    simp only [parse_qb_date]
    rw [if_neg hne, if_neg hsent, hstrict, hiso]
  · intro s hne hsent hstrict hiso
    simp only [parse_qb_date]
    rw [if_neg hne, if_neg hsent, hstrict, hiso]
  · intro l d h1
    unfold tryLocaleFormats
    rw [h1]
  · intro l d h1 h2
    unfold tryLocaleFormats
    rw [h1, h2]
  · intro l d h1 h2 h3
    unfold tryLocaleFormats
    rw [h1, h2, h3]
  · intro l d h1 h2 h3 h4
    unfold tryLocaleFormats
    rw [h1, h2, h3, h4]
  · intro l h1 h2 h3 h4
    unfold tryLocaleFormats
    rw [h1, h2, h3, h4]

/-- C4 (witness): the precedence theorem at concrete inputs — the
strict-but-invalid date 2020-13-01, and the ambiguous 01/02/2020 resolved
by the first locale format to January 2. -/
theorem C4_witness :
    parse_qb_date (.str "2020-13-01") = .unparseable ∧
    parse_qb_date (.str "01/02/2020") =
      (match tryLocaleFormats (pyStrip "01/02/2020").toList with
       | some d2 => DateResult.present d2
       | Option.none => DateResult.unparseable) ∧
    tryLocaleFormats "01/02/2020".toList = some ⟨2020, 1, 2, 0, 0, 0, 0⟩ :=
  ⟨C4_parse_precedence.1 "2020-13-01" 2020 13 1 (by decide) (by decide),
   C4_parse_precedence.2.2.1 "01/02/2020"
     (by decide) (by decide) (by decide) (by decide),
   C4_parse_precedence.2.2.2.1 "01/02/2020".toList ⟨2020, 1, 2, 0, 0, 0, 0⟩ (by decide)⟩

/-- No branch of the FDH field loop touches the errors counter. -/
theorem fdhFieldMetric_errors (rec feat : Attrs) (m : Metrics) (e : String × String) :
    (fdhFieldMetric rec feat m e).errors = m.errors := by
  dsimp only [fdhFieldMetric]
  repeat' split
  all_goals rfl

/-- The whole FDH field loop preserves the errors counter. -/
theorem fdhFeatMetrics_errors (rec feat : Attrs) (m : Metrics) :
    (fdhFeatMetrics rec feat m).errors = m.errors := by
  unfold fdhFeatMetrics FIELD_MAPPING
  simp only [List.foldl_cons, List.foldl_nil, fdhFieldMetric_errors]

/-- The whole FDH feature loop preserves the errors counter. -/
theorem fdhProcessFeature_errors (t : List (String × String))
    (l : List (String × Attrs)) (acc : Metrics × List Attrs) (feat : Attrs) :
    ((fdhProcessFeature t l acc feat).1).errors = acc.1.errors := by
  dsimp only [fdhProcessFeature]
  repeat' split
  all_goals simp [fdhFeatMetrics_errors]

/-- Folding the FDH feature loop over any feature list preserves errors. -/
theorem fdhFold_errors (feats : List Attrs) : ∀ (t : List (String × String))
    (l : List (String × Attrs)) (acc : Metrics × List Attrs),
    ((feats.foldl (fdhProcessFeature t l) acc).1).errors = acc.1.errors := by
  induction feats with
  | nil => intro t l acc; rfl
  | cons f rest ih =>
    intro t l acc
    rw [List.foldl_cons, ih, fdhProcessFeature_errors]

/-- A non-ROE-Date entry of the MDU field loop touches no metric at all. -/
theorem mduFieldMetric_ne (rec : Attrs) (m : Metrics) (e : String × String)
    (h : e.1 ≠ "ROE Date") : mduFieldMetric rec m e = m := by
  dsimp only [mduFieldMetric]
  split_ifs <;> simp_all

/-- The ROE-Date entry of the MDU field loop bumps errors by one when the
(sanitized) source date is unparseable. -/
theorem mduFieldMetric_roedate_unparseable (rec : Attrs) (m : Metrics)
    (h : parse_qb_date (sanitize_arc_text (dictGet rec "ROE Date")) = .unparseable) :
    mduFieldMetric rec m ("ROE Date", "ROEDate") = { m with errors := m.errors + 1 } := by
  dsimp only [mduFieldMetric]
  simp [h]

/-- A non-CX entry of the FDH field loop preserves fdh_cx_unparseable. -/
theorem fdhFieldMetric_cx_ne (rec feat : Attrs) (m : Metrics) (e : String × String)
    (h : e.2 ≠ "CX_Date") :
    (fdhFieldMetric rec feat m e).fdh_cx_unparseable = m.fdh_cx_unparseable := by
  dsimp only [fdhFieldMetric]
  repeat' split
  all_goals simp_all

/-- The CX entry of the FDH field loop bumps fdh_cx_unparseable by one when
the raw source date is unparseable. -/
theorem fdhFieldMetric_cx_unparseable (rec feat : Attrs) (m : Metrics)
    (h : parse_qb_date (dictGet rec "CX Start Date") = .unparseable) :
    (fdhFieldMetric rec feat m ("CX Start Date", "CX_Date")).fdh_cx_unparseable =
      m.fdh_cx_unparseable + 1 := by
  dsimp only [fdhFieldMetric]
  simp [h]

/-- C9: an unparseable MDU ROE Date bumps the process-wide errors counter
(so one such value turns the run summary to WARN even when every remote
update succeeds), while the FDH payload preparation never touches errors —
an unparseable CX date only bumps its per-field unparseable counter. -/
theorem C9_unparseable_error_accounting :
    (∀ rec : Attrs, ∀ m : Metrics,
      parse_qb_date (sanitize_arc_text (dictGet rec "ROE Date")) = .unparseable →
      (mduFeatMetrics rec m).errors = m.errors + 1) ∧
    (∀ t : List (String × String), ∀ qb feats : List Attrs, ∀ m0 : Metrics,
      ((update_arcgis_prepare t qb feats m0).1).errors = m0.errors) ∧
    (∀ rec feat : Attrs, ∀ m : Metrics,
      parse_qb_date (dictGet rec "CX Start Date") = .unparseable →
      (fdhFeatMetrics rec feat m).fdh_cx_unparseable = m.fdh_cx_unparseable + 1 ∧
      (fdhFeatMetrics rec feat m).errors = m.errors) ∧
    (pad_summary_status (update_mdu_arcgis_from_qb
        (fun _ c => some (c.map (fun _ => true))) []
        [[("MDU ID", .str "M2"), ("ROE Date", .str "not-a-date")]]
        [[("OBJECTID", .num 2), ("MDU_id", .str "M2")]] 200 {}).1 = "WARN" ∧
      (update_mdu_arcgis_from_qb (fun _ c => some (c.map (fun _ => true))) []
        [[("MDU ID", .str "M2"), ("ROE Date", .str "not-a-date")]]
        [[("OBJECTID", .num 2), ("MDU_id", .str "M2")]] 200 {}).1.mdu_updated_failed = 0 ∧
      (update_mdu_arcgis_from_qb (fun _ c => some (c.map (fun _ => true))) []
        [[("MDU ID", .str "M2"), ("ROE Date", .str "not-a-date")]]
        [[("OBJECTID", .num 2), ("MDU_id", .str "M2")]] 200 {}).1.mdu_updated_ok = 1) := by
  refine ⟨?_, ?_, ?_, by decide, by decide, by decide⟩
  · intro rec m h
    unfold mduFeatMetrics MDU_FIELD_MAPPING
    simp only [List.foldl_cons, List.foldl_nil]
    rw [mduFieldMetric_ne rec m _ (by decide),
        mduFieldMetric_ne rec _ _ (by decide),
        mduFieldMetric_ne rec _ _ (by decide),
        mduFieldMetric_roedate_unparseable rec _ h,
        mduFieldMetric_ne rec _ _ (by decide),
        mduFieldMetric_ne rec _ _ (by decide),
        mduFieldMetric_ne rec _ _ (by decide)]
  · intro t qb feats m0
    exact fdhFold_errors feats t _ _
  · intro rec feat m h
    constructor
    · unfold fdhFeatMetrics FIELD_MAPPING
      simp only [List.foldl_cons, List.foldl_nil]
      rw [fdhFieldMetric_cx_ne rec feat _ _ (by decide),
          fdhFieldMetric_cx_ne rec feat _ _ (by decide),
          fdhFieldMetric_cx_ne rec feat _ _ (by decide),
          fdhFieldMetric_cx_ne rec feat _ _ (by decide),
          fdhFieldMetric_cx_ne rec feat _ _ (by decide),
          fdhFieldMetric_cx_unparseable rec feat _ h,
          fdhFieldMetric_cx_ne rec feat _ _ (by decide)]
    · exact fdhFeatMetrics_errors rec feat m

/-- C9 (witness): the accounting theorem at concrete inputs — one bad MDU
ROE date bumps errors to 1, one bad CX date bumps only the cx counter. -/
theorem C9_witness :
    (mduFeatMetrics [("ROE Date", .str "bad-date")] {}).errors = 0 + 1 ∧
    (fdhFeatMetrics [("CX Start Date", .str "bad-date")] [] {}).fdh_cx_unparseable = 0 + 1 ∧
    (fdhFeatMetrics [("CX Start Date", .str "bad-date")] [] {}).errors = 0 :=
  ⟨C9_unparseable_error_accounting.1 [("ROE Date", .str "bad-date")] {} (by decide),
   (C9_unparseable_error_accounting.2.2.1 [("CX Start Date", .str "bad-date")] [] {} (by decide)).1,
   (C9_unparseable_error_accounting.2.2.1 [("CX Start Date", .str "bad-date")] [] {} (by decide)).2⟩

/-- With positive batch size and enough fuel, the chunks concatenate back to
the input list. -/
theorem chunksGo_flatten {α : Type} (bs : ℕ) (hbs : 0 < bs) :
    ∀ (fuel : ℕ) (l : List α), l.length ≤ fuel → (chunksGo bs fuel l).flatten = l := by
  intro fuel
  induction fuel with
  | zero =>
    intro l hl
    have h0 : l = [] := List.eq_nil_of_length_eq_zero (Nat.le_zero.mp hl)
    subst h0
    rfl
  | succ n ih =>
    intro l hl
    cases l with
    | nil => rfl
    | cons c t =>
      show ((c :: t).take bs :: chunksGo bs n ((c :: t).drop bs)).flatten = c :: t
      rw [List.flatten_cons,
          ih _ (by simp only [List.length_drop, List.length_cons] at hl ⊢; omega),
          List.take_append_drop]

/-- The batching partitions the payload list: concatenating the chunks in
order gives back the input. -/
theorem chunksList_flatten {α : Type} (bs : ℕ) (hbs : 0 < bs) (l : List α) :
    (chunksList bs l).flatten = l := by
  unfold chunksList
  rw [if_neg (Nat.pos_iff_ne_zero.mp hbs)]
  exact chunksGo_flatten bs hbs _ l le_rfl

/-- Every chunk is nonempty and no longer than the batch size. -/
theorem chunksGo_mem {α : Type} (bs : ℕ) (hbs : 0 < bs) :
    ∀ (fuel : ℕ) (l : List α) (c : List α), c ∈ chunksGo bs fuel l →
      c ≠ [] ∧ c.length ≤ bs := by
  intro fuel
  induction fuel with
  | zero => intro l c hc; exact absurd hc (by simp [chunksGo])
  | succ n ih =>
    intro l c hc
    cases l with
    | nil => exact absurd hc (by simp [chunksGo])
    | cons x t =>
      rw [show chunksGo bs (n + 1) (x :: t) =
            (x :: t).take bs :: chunksGo bs n ((x :: t).drop bs) from rfl] at hc
      rcases List.mem_cons.mp hc with h | h
      · subst h
        constructor
        · cases bs with
          | zero => omega
          | succ b => simp
        · simp [List.length_take]
      · exact ih _ c h

/-- Membership form of the chunk-size bound for chunksList. -/
theorem chunksList_mem {α : Type} (bs : ℕ) (hbs : 0 < bs) (l : List α)
    (c : List α) (hc : c ∈ chunksList bs l) : c ≠ [] ∧ c.length ≤ bs := by
  unfold chunksList at hc
  rw [if_neg (Nat.pos_iff_ne_zero.mp hbs)] at hc
  exact chunksGo_mem bs hbs _ l c hc

/-- The singleton fallback retries exactly the items of the failed chunk,
in order, regardless of singleton outcomes. -/
theorem fdhSingles_map_fst (store : Store) :
    ∀ (chunk : List Attrs) (n : ℕ) (m : Metrics),
      ((fdhSingles store n m chunk).2.2).map Prod.fst = chunk := by
  intro chunk
  induction chunk with
  | nil => intro n m; rfl
  | cons u rest ih =>
    intro n m
    dsimp only [fdhSingles]
    cases store n [u] with
    | some r => simp [ih]
    | none => simp [ih]

/-- Each processed chunk appends exactly one trace event carrying that
chunk. -/
theorem fdhApplyChunk_event (store : Store) (st : ℕ × Metrics × List FdhEvent)
    (chunk : List Attrs) :
    ∃ ev : FdhEvent, (fdhApplyChunk store st chunk).2.2 = st.2.2 ++ [ev] ∧
      ev.chunkOf = chunk := by
  dsimp only [fdhApplyChunk]
  cases store st.1 chunk with
  | some r => exact ⟨_, rfl, rfl⟩
  | none => exact ⟨_, rfl, rfl⟩

/-- The bulk calls of the apply loop are exactly the chunk list, in order. -/
theorem fdhFold_trace (store : Store) :
    ∀ (cs : List (List Attrs)) (st : ℕ × Metrics × List FdhEvent),
      ((cs.foldl (fdhApplyChunk store) st).2.2).map FdhEvent.chunkOf =
        st.2.2.map FdhEvent.chunkOf ++ cs := by
  intro cs
  induction cs with
  | nil => intro st; simp
  | cons c rest ih =>
    intro st
    rw [List.foldl_cons, ih]
    obtain ⟨ev, hev, hc⟩ := fdhApplyChunk_event store st c
    rw [hev]
    simp [hc]

/-- In every trace of the apply loop, a raising bulk call is followed by
singleton retries of exactly that chunk. -/
theorem fdhFold_exn_singles (store : Store) :
    ∀ (cs : List (List Attrs)) (st : ℕ × Metrics × List FdhEvent),
      (∀ c s, FdhEvent.bulkExn c s ∈ st.2.2 → s.map Prod.fst = c) →
      ∀ c s, FdhEvent.bulkExn c s ∈ (cs.foldl (fdhApplyChunk store) st).2.2 →
        s.map Prod.fst = c := by
  intro cs
  induction cs with
  | nil => intro st h c s hm; exact h c s hm
  | cons ch rest ih =>
    intro st h c s hm
    refine ih (fdhApplyChunk store st ch) ?_ c s hm
    intro c2 s2 hm2
    dsimp only [fdhApplyChunk] at hm2
    cases hsc : store st.1 ch with
    | some r =>
      simp only [hsc] at hm2
      rcases List.mem_append.mp hm2 with h2 | h2
      · exact h c2 s2 h2
      · simp at h2
    | none =>
      simp only [hsc] at hm2
      rcases List.mem_append.mp hm2 with h2 | h2
      · exact h c2 s2 h2
      · have h3 := List.mem_singleton.mp h2
        injection h3 with hc hs
        subst hc
        subst hs
        exact fdhSingles_map_fst store _ _ _

/-- C7: the executor partitions the payload list into fixed-size batches in
input order — the bulk-call trace is exactly the chunk list, chunks
concatenate back to the input and respect the size bound — a raising batch
is retried item by item over exactly its own chunk, and the concrete
450-payload scenario with batch size 200 and a forced failure of the second
call produces calls of sizes 200, 200, 50 with exactly 200 singleton
retries, none of which stops the third batch. -/
theorem C7_batch_partitioning :
    (∀ (store : Store) (ups : List Attrs) (bs : ℕ) (m0 : Metrics),
      ((update_arcgis_apply store ups bs m0).2).map FdhEvent.chunkOf = chunksList bs ups) ∧
    (∀ (bs : ℕ), 0 < bs → ∀ l : List Attrs,
      (chunksList bs l).flatten = l ∧
      ∀ c ∈ chunksList bs l, c ≠ [] ∧ c.length ≤ bs) ∧
    (∀ (store : Store) (ups : List Attrs) (bs : ℕ) (m0 : Metrics) (c : List Attrs)
      (s : List (Attrs × Bool)),
      FdhEvent.bulkExn c s ∈ (update_arcgis_apply store ups bs m0).2 →
      s.map Prod.fst = c) ∧
    (update_arcgis_apply
        (fun n c => if n = 1 then Option.none else some (c.map (fun _ => true)))
        (List.replicate 450 [("OBJECTID", PyVal.num 1)]) 200 {}).2 =
      [FdhEvent.bulkOk (List.replicate 200 [("OBJECTID", PyVal.num 1)])
         (List.replicate 200 true),
       FdhEvent.bulkExn (List.replicate 200 [("OBJECTID", PyVal.num 1)])
         (List.replicate 200 ([("OBJECTID", PyVal.num 1)], false)),
       FdhEvent.bulkOk (List.replicate 50 [("OBJECTID", PyVal.num 1)])
         (List.replicate 50 true)] := by
  refine ⟨?_, ?_, ?_, by set_option maxRecDepth 100000 in decide⟩
  · intro store ups bs m0
    unfold update_arcgis_apply
    rw [fdhFold_trace]
    rfl
  · intro bs hbs l
    exact ⟨chunksList_flatten bs hbs l, fun c hc => chunksList_mem bs hbs l c hc⟩
  · intro store ups bs m0 c s hm
    exact fdhFold_exn_singles store (chunksList bs ups) (0, m0, []) (by intro c2 s2 h2; simp at h2) c s hm

/-- C7 (witness): the partition bound at batch size 2 over three payloads,
and the singleton-retry law at the forced-failure scenario's second batch. -/
theorem C7_witness :
    ((chunksList 2 [([("OBJECTID", PyVal.num 1)] : Attrs),
        [("OBJECTID", PyVal.num 2)], [("OBJECTID", PyVal.num 3)]]).flatten =
      [[("OBJECTID", PyVal.num 1)], [("OBJECTID", PyVal.num 2)], [("OBJECTID", PyVal.num 3)]] ∧
     ∀ c ∈ chunksList 2 [([("OBJECTID", PyVal.num 1)] : Attrs),
        [("OBJECTID", PyVal.num 2)], [("OBJECTID", PyVal.num 3)]], c ≠ [] ∧ c.length ≤ 2) ∧
    (List.replicate 200 ([("OBJECTID", PyVal.num 1)], false)).map Prod.fst =
      List.replicate 200 [("OBJECTID", PyVal.num 1)] :=
  ⟨C7_batch_partitioning.2.1 2 (by decide) _,
   C7_batch_partitioning.2.2.1
     (fun n c => if n = 1 then Option.none else some (c.map (fun _ => true)))
     (List.replicate 450 [("OBJECTID", PyVal.num 1)]) 200 {} _ _
     (by rw [C7_batch_partitioning.2.2.2]; simp)⟩

/-- Metric deltas of the singleton fallback: ok untouched, failed and
errors bumped once per raising singleton. -/
theorem fdhSingles_metrics (store : Store) :
    ∀ (chunk : List Attrs) (n : ℕ) (m : Metrics),
      (fdhSingles store n m chunk).2.1.fdh_updated_ok = m.fdh_updated_ok ∧
      (fdhSingles store n m chunk).2.1.fdh_updated_failed =
        m.fdh_updated_failed + (((fdhSingles store n m chunk).2.2).filter (fun x => x.2)).length ∧
      (fdhSingles store n m chunk).2.1.errors =
        m.errors + (((fdhSingles store n m chunk).2.2).filter (fun x => x.2)).length := by
  intro chunk
  induction chunk with
  | nil => intro n m; exact ⟨rfl, rfl, rfl⟩
  | cons u rest ih =>
    intro n m
    dsimp only [fdhSingles]
    cases hs : store n [u] with
    | some r =>
      obtain ⟨h1, h2, h3⟩ := ih (n + 1) m
      simp [h1, h2, h3]
    | none =>
      obtain ⟨h1, h2, h3⟩ := ih (n + 1)
        { m with fdh_updated_failed := m.fdh_updated_failed + 1, errors := m.errors + 1 }
      simp only [List.filter_cons] at *
      simp [h1, h2, h3]
      constructor <;> omega

/-- C10: when an FDH bulk call raises, fdh_updated_failed and errors are
bumped by the full chunk size up front, every failing singleton retry bumps
both again, a succeeding singleton retry never bumps fdh_updated_ok — so on
the concrete one-payload run whose every call raises, ok + failed = 2 > 1
submitted payload. -/
theorem C10_exception_double_count :
    (∀ (store : Store) (n : ℕ) (m : Metrics) (evs : List FdhEvent) (chunk : List Attrs),
      store n chunk = Option.none →
      ∃ s : List (Attrs × Bool),
        (fdhApplyChunk store (n, m, evs) chunk).2.2 = evs ++ [.bulkExn chunk s] ∧
        s.map Prod.fst = chunk ∧
        (fdhApplyChunk store (n, m, evs) chunk).2.1.fdh_updated_ok = m.fdh_updated_ok ∧
        (fdhApplyChunk store (n, m, evs) chunk).2.1.fdh_updated_failed =
          m.fdh_updated_failed + chunk.length + (s.filter (fun x => x.2)).length ∧
        (fdhApplyChunk store (n, m, evs) chunk).2.1.errors =
          m.errors + chunk.length + (s.filter (fun x => x.2)).length) ∧
    ((update_arcgis_apply (fun _ _ => Option.none)
        [[("OBJECTID", PyVal.num 1)]] 1 {}).1.fdh_updated_ok = 0 ∧
     (update_arcgis_apply (fun _ _ => Option.none)
        [[("OBJECTID", PyVal.num 1)]] 1 {}).1.fdh_updated_failed = 2 ∧
     (update_arcgis_apply (fun _ _ => Option.none)
        [[("OBJECTID", PyVal.num 1)]] 1 {}).1.errors = 2) := by
  constructor
  · intro store n m evs chunk hs
    refine ⟨(fdhSingles store (n + 1)
      { m with fdh_updated_failed := m.fdh_updated_failed + chunk.length,
               errors := m.errors + chunk.length } chunk).2.2, ?_, ?_, ?_, ?_, ?_⟩
    · dsimp only [fdhApplyChunk]
      simp only [hs]
    · exact fdhSingles_map_fst store chunk _ _
    · dsimp only [fdhApplyChunk]
      simp only [hs]
      exact (fdhSingles_metrics store chunk _ _).1
    · dsimp only [fdhApplyChunk]
      simp only [hs]
      exact (fdhSingles_metrics store chunk _ _).2.1
    · dsimp only [fdhApplyChunk]
      simp only [hs]
      exact (fdhSingles_metrics store chunk _ _).2.2
  · exact ⟨by decide, by decide, by decide⟩

/-- C10 (witness): the failed-batch accounting at a concrete one-item chunk
whose bulk call and singleton retry both raise. -/
theorem C10_witness :
    ∃ s : List (Attrs × Bool),
      (fdhApplyChunk (fun _ _ => Option.none) (0, {}, []) [[("OBJECTID", PyVal.num 1)]]).2.2 =
        [] ++ [.bulkExn [[("OBJECTID", PyVal.num 1)]] s] ∧
      s.map Prod.fst = [[("OBJECTID", PyVal.num 1)]] ∧
      (fdhApplyChunk (fun _ _ => Option.none) (0, {}, []) [[("OBJECTID", PyVal.num 1)]]).2.1.fdh_updated_ok =
        Metrics.fdh_updated_ok {} ∧
      (fdhApplyChunk (fun _ _ => Option.none) (0, {}, []) [[("OBJECTID", PyVal.num 1)]]).2.1.fdh_updated_failed =
        Metrics.fdh_updated_failed {} + ([[("OBJECTID", PyVal.num 1)]] : List Attrs).length +
          (s.filter (fun x => x.2)).length ∧
      (fdhApplyChunk (fun _ _ => Option.none) (0, {}, []) [[("OBJECTID", PyVal.num 1)]]).2.1.errors =
        Metrics.errors {} + ([[("OBJECTID", PyVal.num 1)]] : List Attrs).length +
          (s.filter (fun x => x.2)).length :=
  C10_exception_double_count.1 (fun _ _ => Option.none) 0 {} [] [[("OBJECTID", PyVal.num 1)]] rfl

theorem lookup_assocSet {α : Type} (d : List (String × α)) (k : String) (v : α)
    (k2 : String) :
    lookupStr (assocSet d k v) k2 = if k2 = k then some v else lookupStr d k2 := by
  induction d with
  | nil =>
    by_cases h : k2 = k
    · subst h; simp [assocSet, lookupStr]
    · simp [assocSet, lookupStr, h, Ne.symm h]
  | cons hd tl ih =>
    obtain ⟨k1, v1⟩ := hd
    by_cases h1 : k1 = k
    · subst h1
      by_cases h2 : k2 = k1
      · subst h2; simp [assocSet, lookupStr]
      · simp [assocSet, lookupStr, h2, Ne.symm h2]
    · by_cases h3 : k1 = k2
      · subst h3
        have h4 : ¬ k1 = k := h1
        simp [assocSet, lookupStr, h1, Ne.symm h1, ih]
      · simp [assocSet, lookupStr, h1, h3, ih]

theorem mem_assocSet {α : Type} (d : List (String × α)) (k : String) (v : α)
    (kv : String × α) (h : kv ∈ assocSet d k v) : kv = (k, v) ∨ kv ∈ d := by
  induction d with
  | nil => simp [assocSet] at h; exact Or.inl h
  | cons hd tl ih =>
    dsimp only [assocSet] at h
    by_cases h1 : hd.1 = k
    · rw [if_pos h1] at h
      rcases List.mem_cons.mp h with h2 | h2
      · exact Or.inl h2
      · exact Or.inr (List.mem_cons_of_mem _ h2)
    · rw [if_neg h1] at h
      rcases List.mem_cons.mp h with h2 | h2
      · exact Or.inr (h2 ▸ List.mem_cons_self _ _)
      · rcases ih h2 with h3 | h3
        · exact Or.inl h3
        · exact Or.inr (List.mem_cons_of_mem _ h3)

theorem assocSet_keys_sub {α : Type} (d : List (String × α)) (k : String) (v : α)
    (x : String) (h : x ∈ (assocSet d k v).map Prod.fst) :
    x ∈ d.map Prod.fst ∨ x = k := by
  obtain ⟨kv, hkv, rfl⟩ := List.mem_map.mp h
  rcases mem_assocSet d k v kv hkv with h2 | h2
  · right; rw [h2]
  · left; exact List.mem_map.mpr ⟨kv, h2, rfl⟩

theorem assocSet_keys_nodup {α : Type} (d : List (String × α)) (k : String) (v : α)
    (h : (d.map Prod.fst).Nodup) : ((assocSet d k v).map Prod.fst).Nodup := by
  induction d with
  | nil => simp [assocSet]
  | cons hd tl ih =>
    dsimp only [assocSet]
    by_cases h1 : hd.1 = k
    · rw [if_pos h1]
      simp only [List.map_cons, List.nodup_cons] at h ⊢
      exact ⟨h1 ▸ h.1, h.2⟩
    · rw [if_neg h1]
      simp only [List.map_cons, List.nodup_cons] at h ⊢
      refine ⟨?_, ih h.2⟩
      intro hx
      rcases assocSet_keys_sub tl k v hd.1 hx with h2 | h2
      · exact h.1 h2
      · exact h1 h2

theorem foldWrite_mem {step : Attrs → (String × String) → Attrs}
    (hstep : ∀ o e, step o e = o ∨ ∃ v, step o e = assocSet o e.2 v) :
    ∀ (ms : List (String × String)) (o : Attrs) (kv : String × PyVal),
      kv ∈ ms.foldl step o → kv ∈ o ∨ kv.1 ∈ ms.map Prod.snd := by
  intro ms
  induction ms with
  | nil => intro o kv h; exact Or.inl h
  | cons e rest ih =>
    intro o kv h
    rw [List.foldl_cons] at h
    rcases ih (step o e) kv h with h2 | h2
    · rcases hstep o e with hh | ⟨v, hh⟩
      · rw [hh] at h2; exact Or.inl h2
      · rw [hh] at h2
        rcases mem_assocSet _ _ _ _ h2 with h3 | h3
        · right
          rw [h3]
          exact List.mem_cons_self _ _
        · exact Or.inl h3
    · right
      exact List.mem_cons_of_mem _ h2

theorem foldWrite_keys_nodup {step : Attrs → (String × String) → Attrs}
    (hstep : ∀ o e, step o e = o ∨ ∃ v, step o e = assocSet o e.2 v) :
    ∀ (ms : List (String × String)) (o : Attrs),
      (o.map Prod.fst).Nodup → ((ms.foldl step o).map Prod.fst).Nodup := by
  intro ms
  induction ms with
  | nil => intro o h; exact h
  | cons e rest ih =>
    intro o h
    rw [List.foldl_cons]
    refine ih (step o e) ?_
    rcases hstep o e with hh | ⟨v, hh⟩
    · rw [hh]; exact h
    · rw [hh]; exact assocSet_keys_nodup o e.2 v h

theorem fdhFieldWrite_cases (t : List (String × String)) (rec feat : Attrs)
    (o : Attrs) (e : String × String) :
    fdhFieldWrite t rec feat o e = o ∨
      ∃ v, fdhFieldWrite t rec feat o e = assocSet o e.2 v := by
  dsimp only [fdhFieldWrite]
  repeat' split
  all_goals first
    | exact Or.inl rfl
    | exact Or.inr ⟨_, rfl⟩

theorem mduFieldWrite_cases (t : List (String × String)) (rec : Attrs)
    (o : Attrs) (e : String × String) :
    mduFieldWrite t rec o e = o ∨
      ∃ v, mduFieldWrite t rec o e = assocSet o e.2 v := by
  dsimp only [mduFieldWrite]
  repeat' split
  all_goals first
    | exact Or.inl rfl
    | exact Or.inr ⟨_, rfl⟩

theorem exists_mapped_key (ids arcs : List String) (p : Attrs)
    (hlen : ids.length < p.length) (hn : (p.map Prod.fst).Nodup)
    (hsub : ∀ kv ∈ p, kv.1 ∈ ids ∨ kv.1 ∈ arcs) : ∃ kv ∈ p, kv.1 ∈ arcs := by
  by_contra hno
  push_neg at hno
  have hsub2 : p.map Prod.fst ⊆ ids := by
    intro x hx
    obtain ⟨kv, hkv, rfl⟩ := List.mem_map.mp hx
    rcases hsub kv hkv with h | h
    · exact h
    · exact absurd h (hno kv hkv)
  have hle := (hn.subperm hsub2).length_le
  rw [List.length_map] at hle
  omega

theorem fdhProcessFeature_updates (t : List (String × String))
    (l : List (String × Attrs)) (acc : Metrics × List Attrs) (feat : Attrs) :
    (fdhProcessFeature t l acc feat).2 = acc.2 ++ (fdhFeatPayload t l feat).toList := by
  dsimp only [fdhProcessFeature, fdhFeatPayload]
  repeat' split
  all_goals simp_all

theorem fdhFold_updates (feats : List Attrs) : ∀ (t : List (String × String))
    (l : List (String × Attrs)) (acc : Metrics × List Attrs),
    (feats.foldl (fdhProcessFeature t l) acc).2 =
      acc.2 ++ feats.filterMap (fdhFeatPayload t l) := by
  induction feats with
  | nil => intro t l acc; simp
  | cons f rest ih =>
    intro t l acc
    rw [List.foldl_cons, ih, fdhProcessFeature_updates]
    cases h : fdhFeatPayload t l f <;> simp [h, List.filterMap_cons]

theorem update_arcgis_prepare_updates (t : List (String × String))
    (qb feats : List Attrs) (m0 : Metrics) :
    (update_arcgis_prepare t qb feats m0).2 =
      feats.filterMap (fdhFeatPayload t (buildLookup "FDH_ID_QB" qb)) := by
  unfold update_arcgis_prepare
  dsimp only
  rw [fdhFold_updates]
  rfl

theorem mduProcessFeature_updates (t : List (String × String))
    (l : List (String × Attrs)) (acc : Metrics × List Attrs) (feat : Attrs) :
    (mduProcessFeature t l acc feat).2 = acc.2 ++ (mduFeatPayload t l feat).toList := by
  dsimp only [mduProcessFeature, mduFeatPayload]
  repeat' split
  all_goals simp_all

theorem mduFold_updates (feats : List Attrs) : ∀ (t : List (String × String))
    (l : List (String × Attrs)) (acc : Metrics × List Attrs),
    (feats.foldl (mduProcessFeature t l) acc).2 =
      acc.2 ++ feats.filterMap (mduFeatPayload t l) := by
  induction feats with
  | nil => intro t l acc; simp
  | cons f rest ih =>
    intro t l acc
    rw [List.foldl_cons, ih, mduProcessFeature_updates]
    cases h : mduFeatPayload t l f <;> simp [h, List.filterMap_cons]

theorem update_mdu_prepare_updates (t : List (String × String))
    (qb feats : List Attrs) (m0 : Metrics) :
    (update_mdu_prepare t qb feats m0).2 =
      feats.filterMap (mduFeatPayload t (buildLookup "MDU ID" qb)) := by
  unfold update_mdu_prepare
  dsimp only
  rw [mduFold_updates]
  rfl



theorem fdhOutAttrs_mem (t : List (String × String)) (rec feat : Attrs)
    (oid : PyVal) (recId : String) (kv : String × PyVal)
    (h : kv ∈ fdhOutAttrs t rec feat oid recId) :
    kv.1 = "OBJECTID" ∨ kv.1 = "FDH_ID" ∨ kv.1 ∈ FIELD_MAPPING.map Prod.snd := by
  rcases foldWrite_mem (fdhFieldWrite_cases t rec feat) FIELD_MAPPING _ kv h with h2 | h2
  · dsimp only [fdhInitAttrs] at h2
    rcases List.mem_cons.mp h2 with h3 | h3
    · left; rw [h3]
    · right; left
      rcases List.mem_cons.mp h3 with h4 | h4
      · rw [h4]
      · exact absurd h4 (by simp)
  · right; right; exact h2

theorem fdhOutAttrs_nodup (t : List (String × String)) (rec feat : Attrs)
    (oid : PyVal) (recId : String) :
    ((fdhOutAttrs t rec feat oid recId).map Prod.fst).Nodup := by
  refine foldWrite_keys_nodup (fdhFieldWrite_cases t rec feat) FIELD_MAPPING _ ?_
  simp [fdhInitAttrs]

theorem mduOutAttrs_mem (t : List (String × String)) (rec : Attrs)
    (oid : PyVal) (kv : String × PyVal) (h : kv ∈ mduOutAttrs t rec oid) :
    kv.1 = "OBJECTID" ∨ kv.1 ∈ MDU_FIELD_MAPPING.map Prod.snd := by
  rcases foldWrite_mem (mduFieldWrite_cases t rec) MDU_FIELD_MAPPING _ kv h with h2 | h2
  · left
    rcases List.mem_cons.mp h2 with h3 | h3
    · rw [h3]
    · exact absurd h3 (by simp)
  · right; exact h2

theorem mduOutAttrs_nodup (t : List (String × String)) (rec : Attrs) (oid : PyVal) :
    ((mduOutAttrs t rec oid).map Prod.fst).Nodup := by
  refine foldWrite_keys_nodup (mduFieldWrite_cases t rec) MDU_FIELD_MAPPING _ ?_
  simp

theorem fdhFeatPayload_props (t : List (String × String))
    (l : List (String × Attrs)) (feat : Attrs) (p : Attrs)
    (h : fdhFeatPayload t l feat = some p) :
    2 < p.length ∧ (p.map Prod.fst).Nodup ∧
      ∀ kv ∈ p, kv.1 = "OBJECTID" ∨ kv.1 = "FDH_ID" ∨ kv.1 ∈ FIELD_MAPPING.map Prod.snd := by
  dsimp only [fdhFeatPayload] at h
  repeat' split at h
  all_goals try exact Option.noConfusion h
  next hlen =>
    injection h with h
    subst h
    exact ⟨hlen, fdhOutAttrs_nodup _ _ _ _ _, fun kv hkv => fdhOutAttrs_mem _ _ _ _ _ kv hkv⟩

theorem mduFeatPayload_props (t : List (String × String))
    (l : List (String × Attrs)) (feat : Attrs) (p : Attrs)
    (h : mduFeatPayload t l feat = some p) :
    1 < p.length ∧ (p.map Prod.fst).Nodup ∧
      ∀ kv ∈ p, kv.1 = "OBJECTID" ∨ kv.1 ∈ MDU_FIELD_MAPPING.map Prod.snd := by
  dsimp only [mduFeatPayload] at h
  repeat' split at h
  all_goals try exact Option.noConfusion h
  next hlen =>
    injection h with h
    subst h
    exact ⟨hlen, mduOutAttrs_nodup _ _ _, fun kv hkv => mduOutAttrs_mem _ _ _ kv hkv⟩

/-- C6: every emitted payload's keys lie in {OBJECTID, business-key echo
(FDH only)} plus the active field mapping's target attributes, and every
emitted payload carries at least one mapped attribute beyond the
identifier(s) — OBJECTID-only (and, for FDH, OBJECTID+echo-only) payloads
are dropped before submission. -/
theorem C6_payload_minimality :
    (∀ (t : List (String × String)) (qb feats : List Attrs) (m0 : Metrics) (p : Attrs),
      p ∈ (update_arcgis_prepare t qb feats m0).2 →
      (∀ kv ∈ p, kv.1 = "OBJECTID" ∨ kv.1 = "FDH_ID" ∨ kv.1 ∈ FIELD_MAPPING.map Prod.snd) ∧
      2 < p.length ∧
      ∃ kv ∈ p, kv.1 ≠ "OBJECTID" ∧ kv.1 ≠ "FDH_ID" ∧ kv.1 ∈ FIELD_MAPPING.map Prod.snd) ∧
    (∀ (t : List (String × String)) (qb feats : List Attrs) (m0 : Metrics) (p : Attrs),
      p ∈ (update_mdu_prepare t qb feats m0).2 →
      (∀ kv ∈ p, kv.1 = "OBJECTID" ∨ kv.1 ∈ MDU_FIELD_MAPPING.map Prod.snd) ∧
      1 < p.length ∧
      ∃ kv ∈ p, kv.1 ≠ "OBJECTID" ∧ kv.1 ∈ MDU_FIELD_MAPPING.map Prod.snd) := by
  constructor
  · intro t qb feats m0 p hp
    rw [update_arcgis_prepare_updates] at hp
    obtain ⟨feat, hfeat, hsome⟩ := List.mem_filterMap.mp hp
    obtain ⟨hlen, hnodup, hsub⟩ := fdhFeatPayload_props _ _ _ _ hsome
    refine ⟨hsub, hlen, ?_⟩
    obtain ⟨kv, hkv, harc⟩ := exists_mapped_key ["OBJECTID", "FDH_ID"]
      (FIELD_MAPPING.map Prod.snd) p (by simpa using hlen) hnodup
      (fun kv hkv => by rcases hsub kv hkv with h | h | h <;> simp [h])
    refine ⟨kv, hkv, ?_, ?_, harc⟩
    · intro he; rw [he] at harc; exact absurd harc (by decide)
    · intro he; rw [he] at harc; exact absurd harc (by decide)
  · intro t qb feats m0 p hp
    rw [update_mdu_prepare_updates] at hp
    obtain ⟨feat, hfeat, hsome⟩ := List.mem_filterMap.mp hp
    obtain ⟨hlen, hnodup, hsub⟩ := mduFeatPayload_props _ _ _ _ hsome
    refine ⟨hsub, hlen, ?_⟩
    obtain ⟨kv, hkv, harc⟩ := exists_mapped_key ["OBJECTID"]
      (MDU_FIELD_MAPPING.map Prod.snd) p (by simpa using hlen) hnodup
      (fun kv hkv => by rcases hsub kv hkv with h | h <;> simp [h])
    refine ⟨kv, hkv, ?_, harc⟩
    intro he; rw [he] at harc; exact absurd harc (by decide)

/-- A write of a non-matching entry leaves a key's lookup unchanged. -/
theorem lookup_fdhFieldWrite_ne (t : List (String × String)) (rec feat : Attrs)
    (o : Attrs) (e : String × String) (k : String) (h : e.2 ≠ k) :
    lookupStr (fdhFieldWrite t rec feat o e) k = lookupStr o k := by
  rcases fdhFieldWrite_cases t rec feat o e with hh | ⟨v, hh⟩ <;> rw [hh]
  rw [lookup_assocSet, if_neg (fun hk => h hk.symm)]

/-- A write of a non-matching MDU entry leaves a key's lookup unchanged. -/
theorem lookup_mduFieldWrite_ne (t : List (String × String)) (rec : Attrs)
    (o : Attrs) (e : String × String) (k : String) (h : e.2 ≠ k) :
    lookupStr (mduFieldWrite t rec o e) k = lookupStr o k := by
  rcases mduFieldWrite_cases t rec o e with hh | ⟨v, hh⟩ <;> rw [hh]
  rw [lookup_assocSet, if_neg (fun hk => h hk.symm)]

/-- The FDH date branch on an Absent source with a non-empty current value
emits an explicit null for that field. -/
theorem fdhFieldWrite_date_absent_clear (t : List (String × String))
    (rec feat : Attrs) (o : Attrs) (label arc : String)
    (harc : arc = "CX_Date" ∨ arc = "OFS_Date")
    (habs : parse_qb_date (dictGet rec label) = .absent)
    (hb : pyEmptyZero (dictGet feat arc) = false) :
    fdhFieldWrite t rec feat o (label, arc) = assocSet o arc PyVal.none := by
  dsimp only [fdhFieldWrite]
  simp [harc, habs, hb]

/-- The FDH date branch on an Absent source with an already-empty current
value writes nothing. -/
theorem fdhFieldWrite_date_absent_noop (t : List (String × String))
    (rec feat : Attrs) (o : Attrs) (label arc : String)
    (harc : arc = "CX_Date" ∨ arc = "OFS_Date")
    (habs : parse_qb_date (dictGet rec label) = .absent)
    (hb : pyEmptyZero (dictGet feat arc) = true) :
    fdhFieldWrite t rec feat o (label, arc) = o := by
  dsimp only [fdhFieldWrite]
  simp [harc, habs, hb]

/-- The MDU ROE-Date branch on an Absent (sanitized) source emits null
unconditionally — it never consults the feature's current value. -/
theorem mduFieldWrite_roedate_absent (t : List (String × String)) (rec : Attrs)
    (o : Attrs) (habs : parse_qb_date (sanitize_arc_text (dictGet rec "ROE Date")) = .absent) :
    mduFieldWrite t rec o ("ROE Date", "ROEDate") = assocSet o "ROEDate" PyVal.none := by
  dsimp only [mduFieldWrite]
  simp [habs]

/-- C1 (counterexample): an MDU feature whose ROEDate is already null still
gets an explicit "ROEDate": null entry in its update payload when the
source ROE Date is Absent — the claim says the key must then be omitted. -/
theorem C1_counterexample :
    dictGet [("OBJECTID", PyVal.num 1), ("MDU_id", PyVal.str "M1"),
      ("ROEDate", PyVal.none)] "ROEDate" = PyVal.none ∧
    (update_mdu_prepare [] [[("MDU ID", PyVal.str "M1"), ("ROE Date", PyVal.none)]]
      [[("OBJECTID", PyVal.num 1), ("MDU_id", PyVal.str "M1"),
        ("ROEDate", PyVal.none)]] {}).2 =
      [[("OBJECTID", PyVal.num 1), ("MDU_id", PyVal.str "M1"),
        ("ROEDate", PyVal.none), ("ROESigned", PyVal.str "N")]] ∧
    lookupStr [("OBJECTID", PyVal.num 1), ("MDU_id", PyVal.str "M1"),
      ("ROEDate", PyVal.none), ("ROESigned", PyVal.str "N")] "ROEDate" =
      some PyVal.none := by
  refine ⟨by decide, by decide, by decide⟩

/-- C1 (amended): for the FDH date fields CX_Date and OFS_Date an Absent
source value sets the attribute to null exactly when the feature's current
value is not null/empty-string/zero and omits the key otherwise; for the
MDU ROEDate field an Absent source value always puts null in the payload,
regardless of the feature's current value. -/
theorem C1_absent_clear_policy :
    (∀ (t : List (String × String)) (rec feat : Attrs) (oid : PyVal) (recId : String),
      parse_qb_date (dictGet rec "CX Start Date") = .absent →
      (pyEmptyZero (dictGet feat "CX_Date") = false →
        lookupStr (fdhOutAttrs t rec feat oid recId) "CX_Date" = some PyVal.none) ∧
      (pyEmptyZero (dictGet feat "CX_Date") = true →
        lookupStr (fdhOutAttrs t rec feat oid recId) "CX_Date" = Option.none)) ∧
    (∀ (t : List (String × String)) (rec feat : Attrs) (oid : PyVal) (recId : String),
      parse_qb_date (dictGet rec "OFS Date") = .absent →
      (pyEmptyZero (dictGet feat "OFS_Date") = false →
        lookupStr (fdhOutAttrs t rec feat oid recId) "OFS_Date" = some PyVal.none) ∧
      (pyEmptyZero (dictGet feat "OFS_Date") = true →
        lookupStr (fdhOutAttrs t rec feat oid recId) "OFS_Date" = Option.none)) ∧
    (∀ (t : List (String × String)) (rec : Attrs) (oid : PyVal),
      parse_qb_date (sanitize_arc_text (dictGet rec "ROE Date")) = .absent →
      lookupStr (mduOutAttrs t rec oid) "ROEDate" = some PyVal.none) := by
  refine ⟨?_, ?_, ?_⟩
  · intro t rec feat oid recId habs
    unfold fdhOutAttrs FIELD_MAPPING
    simp only [List.foldl_cons, List.foldl_nil]
    rw [lookup_fdhFieldWrite_ne _ _ _ _ _ _ (by decide),
        lookup_fdhFieldWrite_ne _ _ _ _ _ _ (by decide),
        lookup_fdhFieldWrite_ne _ _ _ _ _ _ (by decide),
        lookup_fdhFieldWrite_ne _ _ _ _ _ _ (by decide),
        lookup_fdhFieldWrite_ne _ _ _ _ _ _ (by decide)]
    constructor
    · intro hb
      rw [fdhFieldWrite_date_absent_clear t rec feat _ _ _ (Or.inl rfl) habs hb,
          lookup_assocSet, if_pos rfl]
    · intro hb
      rw [fdhFieldWrite_date_absent_noop t rec feat _ _ _ (Or.inl rfl) habs hb,
          lookup_fdhFieldWrite_ne _ _ _ _ _ _ (by decide)]
      simp [fdhInitAttrs, lookupStr]
  · intro t rec feat oid recId habs
    unfold fdhOutAttrs FIELD_MAPPING
    simp only [List.foldl_cons, List.foldl_nil]
    rw [lookup_fdhFieldWrite_ne _ _ _ _ _ _ (by decide),
        lookup_fdhFieldWrite_ne _ _ _ _ _ _ (by decide),
        lookup_fdhFieldWrite_ne _ _ _ _ _ _ (by decide),
        lookup_fdhFieldWrite_ne _ _ _ _ _ _ (by decide),
        lookup_fdhFieldWrite_ne _ _ _ _ _ _ (by decide),
        lookup_fdhFieldWrite_ne _ _ _ _ _ _ (by decide)]
    constructor
    · intro hb
      rw [fdhFieldWrite_date_absent_clear t rec feat _ _ _ (Or.inr rfl) habs hb,
          lookup_assocSet, if_pos rfl]
    · intro hb
      rw [fdhFieldWrite_date_absent_noop t rec feat _ _ _ (Or.inr rfl) habs hb]
      simp [fdhInitAttrs, lookupStr]
  · intro t rec oid habs
    unfold mduOutAttrs MDU_FIELD_MAPPING
    simp only [List.foldl_cons, List.foldl_nil]
    rw [lookup_mduFieldWrite_ne _ _ _ _ _ (by decide),
        lookup_mduFieldWrite_ne _ _ _ _ _ (by decide),
        lookup_mduFieldWrite_ne _ _ _ _ _ (by decide),
        mduFieldWrite_roedate_absent t rec _ habs,
        lookup_assocSet, if_pos rfl]

/-- C1 (witness): the policy theorem at concrete features — an FDH feature
with a held CX date gets null, an FDH feature with an empty CX date gets no
key, an MDU feature gets null either way. -/
theorem C1_witness :
    lookupStr (fdhOutAttrs [] [("CX Start Date", PyVal.none)]
      [("CX_Date", PyVal.date ⟨2024, 1, 2, 0, 0, 0, 0⟩)] (PyVal.num 1) "A1") "CX_Date" =
        some PyVal.none ∧
    lookupStr (fdhOutAttrs [] [("CX Start Date", PyVal.none)]
      [("CX_Date", PyVal.none)] (PyVal.num 1) "A1") "CX_Date" = Option.none ∧
    lookupStr (mduOutAttrs [] [("ROE Date", PyVal.none)] (PyVal.num 1)) "ROEDate" =
      some PyVal.none :=
  ⟨(C1_absent_clear_policy.1 [] [("CX Start Date", PyVal.none)]
      [("CX_Date", PyVal.date ⟨2024, 1, 2, 0, 0, 0, 0⟩)] (PyVal.num 1) "A1"
      (by decide)).1 (by decide),
   (C1_absent_clear_policy.1 [] [("CX Start Date", PyVal.none)]
      [("CX_Date", PyVal.none)] (PyVal.num 1) "A1" (by decide)).2 (by decide),
   C1_absent_clear_policy.2.2 [] [("ROE Date", PyVal.none)] (PyVal.num 1) (by decide)⟩

/-- C6 (witness): the payload-shape theorem at a concrete one-feature run
whose payload carries OBJECTID, the FDH_ID echo and one mapped field. -/
theorem C6_witness :
    (∀ kv ∈ ([("OBJECTID", PyVal.num 1), ("FDH_ID", PyVal.str "A1"),
        ("ProjectNum", PyVal.str "P1")] : Attrs),
      kv.1 = "OBJECTID" ∨ kv.1 = "FDH_ID" ∨ kv.1 ∈ FIELD_MAPPING.map Prod.snd) ∧
    2 < ([("OBJECTID", PyVal.num 1), ("FDH_ID", PyVal.str "A1"),
        ("ProjectNum", PyVal.str "P1")] : Attrs).length ∧
    ∃ kv ∈ ([("OBJECTID", PyVal.num 1), ("FDH_ID", PyVal.str "A1"),
        ("ProjectNum", PyVal.str "P1")] : Attrs),
      kv.1 ≠ "OBJECTID" ∧ kv.1 ≠ "FDH_ID" ∧ kv.1 ∈ FIELD_MAPPING.map Prod.snd :=
  C6_payload_minimality.1 []
    [[("FDH_ID_QB", PyVal.str "A1"), ("Project Number", PyVal.str "P1")]]
    [[("OBJECTID", PyVal.num 1), ("FDH_ID", PyVal.str "A1")]] {}
    [("OBJECTID", PyVal.num 1), ("FDH_ID", PyVal.str "A1"), ("ProjectNum", PyVal.str "P1")]
    (by decide)

/-- A key outside an association list's key set looks up to none. -/
theorem lookup_none_of_not_mem {α : Type} (d : List (String × α)) (k : String)
    (h : k ∉ d.map Prod.fst) : lookupStr d k = Option.none := by
  induction d with
  | nil => rfl
  | cons hd tl ih =>
    dsimp only [lookupStr]
    rw [if_neg, ih]
    · intro hm; exact h (by simp [hm])
    · intro he; exact h (by simp [he])

/-- With unique keys, membership determines the lookup. -/
theorem lookup_of_mem_nodup {α : Type} (d : List (String × α))
    (hnd : (d.map Prod.fst).Nodup) (kv : String × α) (h : kv ∈ d) :
    lookupStr d kv.1 = some kv.2 := by
  induction d with
  | nil => exact absurd h (by simp)
  | cons hd tl ih =>
    simp only [List.map_cons, List.nodup_cons] at hnd
    rcases List.mem_cons.mp h with h2 | h2
    · subst h2; dsimp only [lookupStr]; rw [if_pos rfl]
    · dsimp only [lookupStr]
      rw [if_neg, ih hnd.2 h2]
      intro he
      exact hnd.1 (by rw [he]; exact List.mem_map.mpr ⟨kv, h2, rfl⟩)

/-- Re-assigning the value a key already holds is a no-op. -/
theorem assocSet_of_lookup_eq {α : Type} (d : List (String × α)) (k : String)
    (v : α) (h : lookupStr d k = some v) : assocSet d k v = d := by
  induction d with
  | nil => exact Option.noConfusion h
  | cons hd tl ih =>
    dsimp only [lookupStr] at h
    dsimp only [assocSet]
    by_cases h1 : hd.1 = k
    · rw [if_pos h1]
      rw [if_pos h1] at h
      injection h with h
      rw [← h1, ← h]
    · rw [if_neg h1]
      rw [if_neg h1] at h
      rw [ih h]

/-- Applying a payload whose every binding the feature already satisfies
changes nothing. -/
theorem applyAttrsTo_fixpoint (p : Attrs) : ∀ (f : Attrs),
    (∀ kv ∈ p, lookupStr f kv.1 = some kv.2) → applyAttrsTo f p = f := by
  induction p with
  | nil => intro f _; rfl
  | cons kv rest ih =>
    intro f h
    show applyAttrsTo (assocSet f kv.1 kv.2) rest = f
    rw [assocSet_of_lookup_eq f kv.1 kv.2 (h kv (List.mem_cons_self _ _))]
    exact ih f (fun kv2 h2 => h kv2 (List.mem_cons_of_mem _ h2))

/-- Lookup after applying a unique-keyed payload: the payload's bindings
shadow the feature's. -/
theorem lookup_applyAttrsTo (p : Attrs) : ∀ (f : Attrs),
    (p.map Prod.fst).Nodup → ∀ k,
    lookupStr (applyAttrsTo f p) k =
      (match lookupStr p k with
       | some v => some v
       | Option.none => lookupStr f k) := by
  induction p with
  | nil => intro f _ k; rfl
  | cons kv rest ih =>
    intro f hnd k
    simp only [List.map_cons, List.nodup_cons] at hnd
    show lookupStr (applyAttrsTo (assocSet f kv.1 kv.2) rest) k = _
    rw [ih _ hnd.2 k]
    by_cases h1 : k = kv.1
    · subst h1
      rw [lookup_none_of_not_mem rest kv.1 hnd.1]
      dsimp only [lookupStr]
      rw [if_pos rfl, lookup_assocSet, if_pos rfl]
    · dsimp only [lookupStr]
      rw [if_neg (fun he => h1 he.symm), lookup_assocSet, if_neg h1]

/-- A feature is untouched by payloads addressed to other OBJECTIDs. -/
theorem foldApplyUpd_skip (ups : List Attrs) : ∀ (f : Attrs),
    (∀ p ∈ ups, dictGet p "OBJECTID" ≠ dictGet f "OBJECTID") →
    ups.foldl applyUpd f = f := by
  induction ups with
  | nil => intro f _; rfl
  | cons p rest ih =>
    intro f h
    rw [List.foldl_cons]
    have h1 : applyUpd f p = f := by
      unfold applyUpd
      rw [if_neg (h p (List.mem_cons_self _ _))]
    rw [h1]
    exact ih f (fun q hq => h q (List.mem_cons_of_mem _ hq))

/-- Under pairwise-distinct OBJECTIDs, applying the per-feature payload
list by OBJECTID matching touches each feature with exactly its own
payload. -/
theorem applyUpdates_pointwise (fp : Attrs → Option Attrs)
    (hoid : ∀ f p, fp f = some p → dictGet p "OBJECTID" = dictGet f "OBJECTID")
    (hpres : ∀ f p, fp f = some p →
      dictGet (applyAttrsTo f p) "OBJECTID" = dictGet f "OBJECTID") :
    ∀ (feats : List Attrs),
      List.Pairwise (· ≠ ·) (feats.map (fun f => dictGet f "OBJECTID")) →
      applyUpdates feats (feats.filterMap fp) =
        feats.map (fun f => applyOptP f (fp f)) := by
  intro feats hdist
  unfold applyUpdates
  apply List.map_congr_left
  suffices h : ∀ (fs : List Attrs),
      List.Pairwise (· ≠ ·) (fs.map (fun f => dictGet f "OBJECTID")) →
      ∀ f ∈ fs, (fs.filterMap fp).foldl applyUpd f = applyOptP f (fp f) by
    exact fun f hf => h feats hdist f hf
  intro fs
  induction fs with
  | nil => intro _ f hf; exact absurd hf (by simp)
  | cons g rest ih =>
    intro hp f hf
    simp only [List.map_cons, List.pairwise_cons] at hp
    rcases List.mem_cons.mp hf with rfl | hf2
    · cases hg : fp f with
      | none =>
        rw [List.filterMap_cons, hg]
        refine (foldApplyUpd_skip _ f ?_).trans rfl
        intro p hpmem
        obtain ⟨h2, hh2, hfp2⟩ := List.mem_filterMap.mp hpmem
        rw [hoid h2 p hfp2]
        exact fun he => (hp.1 _ (List.mem_map.mpr ⟨h2, hh2, rfl⟩)) he.symm
      | some p =>
        rw [List.filterMap_cons, hg, List.foldl_cons]
        have h1 : applyUpd f p = applyAttrsTo f p := by
          unfold applyUpd
          rw [if_pos (hoid f p hg)]
        rw [h1]
        have h2 : (rest.filterMap fp).foldl applyUpd (applyAttrsTo f p) =
            applyAttrsTo f p := by
          refine foldApplyUpd_skip _ _ ?_
          intro q hq
          obtain ⟨h3, hh3, hfp3⟩ := List.mem_filterMap.mp hq
          rw [hoid h3 q hfp3, hpres f p hg]
          exact fun he => (hp.1 _ (List.mem_map.mpr ⟨h3, hh3, rfl⟩)) he.symm
        rw [h2]
        rfl
    · rw [List.filterMap_cons]
      cases hg : fp g with
      | none => exact ih hp.2 f hf2
      | some p =>
        rw [List.foldl_cons]
        have h1 : applyUpd f p = f := by
          unfold applyUpd
          rw [if_neg]
          rw [hoid g p hg]
          exact hp.1 _ (List.mem_map.mpr ⟨f, hf2, rfl⟩)
        rw [h1]
        exact ih hp.2 f hf2

/-- dropWhile is idempotent. -/
theorem dropWhile_idem (p : Char → Bool) : ∀ l : List Char,
    List.dropWhile p (List.dropWhile p l) = List.dropWhile p l := by
  intro l
  induction l with
  | nil => rfl
  | cons c t ih =>
    by_cases h : p c
    · rw [List.dropWhile_cons_of_pos h, ih]
    · rw [List.dropWhile_cons_of_neg h, List.dropWhile_cons_of_neg h]

/-- The head surviving a dropWhile fails the predicate. -/
theorem head?_dropWhile (p : Char → Bool) : ∀ (l : List Char) (c : Char),
    (List.dropWhile p l).head? = some c → p c = false := by
  intro l
  induction l with
  | nil => intro c h; exact Option.noConfusion h
  | cons d t ih =>
    intro c h
    by_cases hd : p d
    · rw [List.dropWhile_cons_of_pos hd] at h
      exact ih c h
    · rw [List.dropWhile_cons_of_neg hd] at h
      injection h with h
      rw [← h]
      exact Bool.not_eq_true _ ▸ (by simpa using hd)

/-- dropWhile keeps the last element when it keeps anything. -/
theorem getLast?_dropWhile (p : Char → Bool) : ∀ l : List Char,
    List.dropWhile p l ≠ [] → (List.dropWhile p l).getLast? = l.getLast? := by
  intro l
  induction l with
  | nil => intro h; exact absurd rfl h
  | cons d t ih =>
    intro h
    by_cases hd : p d
    · rw [List.dropWhile_cons_of_pos hd] at h ⊢
      rw [ih h]
      have ht : t ≠ [] := by
        intro he
        rw [he] at h
        exact h rfl
      cases t with
      | nil => exact absurd rfl ht
      | cons x y => rw [List.getLast?_cons_cons]
    · rw [List.dropWhile_cons_of_neg hd]

/-- A stripped character list has no leading whitespace left. -/
theorem dropWhile_stripChars (l : List Char) :
    List.dropWhile Char.isWhitespace (stripChars l) = stripChars l := by
  cases h : stripChars l with
  | nil => rfl
  | cons c rest =>
    have hhead : (stripChars l).head? = some c := by rw [h]; rfl
    have hY : (List.dropWhile Char.isWhitespace
        ((List.dropWhile Char.isWhitespace l).reverse)).reverse.head? = some c := hhead
    rw [List.head?_reverse] at hY
    have hYne : List.dropWhile Char.isWhitespace
        ((List.dropWhile Char.isWhitespace l).reverse) ≠ [] := by
      intro he
      rw [he] at hY
      exact Option.noConfusion hY
    rw [getLast?_dropWhile _ _ hYne, List.getLast?_reverse] at hY
    have hc : Char.isWhitespace c = false := head?_dropWhile _ _ _ hY
    exact List.dropWhile_cons_of_neg (by simp [hc])

/-- Stripping is idempotent on character lists. -/
theorem stripChars_idem (l : List Char) : stripChars (stripChars l) = stripChars l := by
  show (List.dropWhile Char.isWhitespace
      ((List.dropWhile Char.isWhitespace (stripChars l)).reverse)).reverse = stripChars l
  rw [dropWhile_stripChars]
  show (List.dropWhile Char.isWhitespace
      ((List.dropWhile Char.isWhitespace
        ((List.dropWhile Char.isWhitespace l).reverse)).reverse.reverse)).reverse = _
  rw [List.reverse_reverse, dropWhile_idem]
  rfl

/-- Python str.strip is idempotent. -/
theorem pyStrip_idem (s : String) : pyStrip (pyStrip s) = pyStrip s := by
  show String.mk (stripChars (String.mk (stripChars s.toList)).toList) = _
  have h : (String.mk (stripChars s.toList)).toList = stripChars s.toList := rfl
  rw [h]
  show String.mk (stripChars (stripChars s.toList)) = String.mk (stripChars s.toList)
  rw [stripChars_idem]

end QBSync

namespace QBSync

theorem lookup_foldStep_notin {step : Attrs → (String × String) → Attrs}
    (hstep : ∀ o e, step o e = o ∨ ∃ v, step o e = assocSet o e.2 v) :
    ∀ (ms : List (String × String)) (o : Attrs) (k : String),
      k ∉ ms.map Prod.snd → lookupStr (ms.foldl step o) k = lookupStr o k := by
  intro ms
  induction ms with
  | nil => intro o k _; rfl
  | cons e rest ih =>
    intro o k hk
    rw [List.foldl_cons, ih (step o e) k (fun hm => hk (by simp [hm]))]
    rcases hstep o e with hh | ⟨v, hh⟩ <;> rw [hh]
    rw [lookup_assocSet, if_neg]
    intro he
    exact hk (by simp [he])

theorem lookup_foldStep_eff {step : Attrs → (String × String) → Attrs}
    {eff : (String × String) → Option PyVal}
    (hK : ∀ o e, step o e =
      (match eff e with
       | some v => assocSet o e.2 v
       | Option.none => o)) :
    ∀ (ms : List (String × String)), (ms.map Prod.snd).Nodup →
      ∀ e ∈ ms, ∀ o : Attrs,
      lookupStr (ms.foldl step o) e.2 =
        (match eff e with
         | some v => some v
         | Option.none => lookupStr o e.2) := by
  have hstep : ∀ o e, step o e = o ∨ ∃ v, step o e = assocSet o e.2 v := by
    intro o e
    rw [hK o e]
    cases eff e with
    | none => exact Or.inl rfl
    | some v => exact Or.inr ⟨v, rfl⟩
  intro ms
  induction ms with
  | nil => intro _ e he; exact absurd he (by simp)
  | cons hd rest ih =>
    intro hnd e he o
    simp only [List.map_cons, List.nodup_cons] at hnd
    rw [List.foldl_cons]
    rcases List.mem_cons.mp he with rfl | he2
    · rw [lookup_foldStep_notin hstep rest (step o e) e.2 hnd.1, hK o e]
      cases eff e with
      | none => rfl
      | some v =>
        dsimp only
        rw [lookup_assocSet, if_pos rfl]
    · have hne : hd.2 ≠ e.2 := by
        intro hh
        exact hnd.1 (hh ▸ List.mem_map.mpr ⟨e, he2, rfl⟩)
      rw [ih hnd.2 e he2 (step o hd)]
      cases eff e with
      | none =>
        dsimp only
        rcases hstep o hd with hh | ⟨v, hh⟩ <;> rw [hh]
        rw [lookup_assocSet, if_neg (fun hh2 => hne hh2.symm)]
      | some v => rfl

theorem fdhFieldWrite_eff (t : List (String × String)) (rec feat : Attrs)
    (o : Attrs) (e : String × String) :
    fdhFieldWrite t rec feat o e =
      (match fdhFieldEff t rec feat e with
       | some v => assocSet o e.2 v
       | Option.none => o) := by
  dsimp only [fdhFieldWrite, fdhFieldEff]
  repeat' split
  all_goals first
    | rfl
    | simp_all

theorem mduFieldWrite_eff (t : List (String × String)) (rec : Attrs)
    (o : Attrs) (e : String × String) :
    mduFieldWrite t rec o e =
      (match mduFieldEff t rec e with
       | some v => assocSet o e.2 v
       | Option.none => o) := by
  dsimp only [mduFieldWrite, mduFieldEff]
  repeat' split
  all_goals first
    | rfl
    | simp_all

theorem buildLookupStep_cases (keyField : String) (acc : List (String × Attrs))
    (row : Attrs) :
    buildLookupStep keyField acc row = acc ∨
    (buildLookupStep keyField acc row =
        assocSet acc (pyStrip (pyStr (dictGet row keyField))) row ∧
      pyStrip (pyStr (dictGet row keyField)) ≠ "") := by
  dsimp only [buildLookupStep]
  cases h : dictGet row keyField with
  | none => exact Or.inl rfl
  | str s =>
    dsimp only
    split_ifs with hke
    · exact Or.inl rfl
    · exact Or.inr ⟨rfl, hke⟩
  | num q =>
    dsimp only
    split_ifs with hke
    · exact Or.inl rfl
    · exact Or.inr ⟨rfl, hke⟩
  | bool b =>
    dsimp only
    split_ifs with hke
    · exact Or.inl rfl
    · exact Or.inr ⟨rfl, hke⟩
  | list l =>
    dsimp only
    split_ifs with hke
    · exact Or.inl rfl
    · exact Or.inr ⟨rfl, hke⟩
  | date d =>
    dsimp only
    split_ifs with hke
    · exact Or.inl rfl
    · exact Or.inr ⟨rfl, hke⟩

theorem buildLookup_inv (keyField : String) (rows : List Attrs) :
    ∀ (k : String) (r : Attrs), lookupStr (buildLookup keyField rows) k = some r →
      pyStrip (pyStr (dictGet r keyField)) = k ∧ k ≠ "" ∧ r ∈ rows := by
  suffices h : ∀ (rows : List Attrs) (acc : List (String × Attrs)) (S : List Attrs),
      (∀ k r, lookupStr acc k = some r →
        pyStrip (pyStr (dictGet r keyField)) = k ∧ k ≠ "" ∧ r ∈ S) →
      (∀ row ∈ rows, row ∈ S) →
      ∀ k r, lookupStr (rows.foldl (buildLookupStep keyField) acc) k = some r →
        pyStrip (pyStr (dictGet r keyField)) = k ∧ k ≠ "" ∧ r ∈ S by
    intro k r hk
    exact h rows [] rows (fun k2 r2 hr2 => Option.noConfusion hr2) (fun _ hr => hr) k r hk
  intro rows
  induction rows with
  | nil => intro acc S hacc _ k r hk; exact hacc k r hk
  | cons row rest ih =>
    intro acc S hacc hsub k r hk
    rw [List.foldl_cons] at hk
    refine ih (buildLookupStep keyField acc row) S ?_
      (fun r2 h2 => hsub r2 (List.mem_cons_of_mem _ h2)) k r hk
    intro k2 r2 h2
    rcases buildLookupStep_cases keyField acc row with hc | ⟨hc, hne⟩
    · rw [hc] at h2; exact hacc k2 r2 h2
    · rw [hc, lookup_assocSet] at h2
      by_cases hkk : k2 = pyStrip (pyStr (dictGet row keyField))
      · rw [if_pos hkk] at h2
        injection h2 with h2
        subst h2
        exact ⟨hkk ▸ rfl, fun he => hne (by rw [← hkk, he]), hsub row (List.mem_cons_self _ _)⟩
      · rw [if_neg hkk] at h2
        exact hacc k2 r2 h2


theorem fdhOutAttrs_init_none (oid : PyVal) (recId : String) (e : String × String)
    (he : e ∈ FIELD_MAPPING) :
    lookupStr (fdhInitAttrs oid recId) e.2 = Option.none := by
  apply lookup_none_of_not_mem
  have h : ∀ a ∈ FIELD_MAPPING.map Prod.snd, a ∉ (["OBJECTID", "FDH_ID"] : List String) := by
    decide
  have h2 := h e.2 (List.mem_map.mpr ⟨e, he, rfl⟩)
  intro hm
  exact h2 hm

theorem fdhFeat_state_idem (t : List (String × String)) (L : List (String × Attrs))
    (hL : ∀ k r, lookupStr L k = some r → k ≠ "") (f : Attrs) :
    applyOptP (applyOptP f (fdhFeatPayload t L f))
      (fdhFeatPayload t L (applyOptP f (fdhFeatPayload t L f))) =
    applyOptP f (fdhFeatPayload t L f) := by
  cases hp : fdhFeatPayload t L f with
  | none =>
    dsimp only [applyOptP]
    rw [hp]
  | some p =>
    dsimp only [applyOptP]
    dsimp only [fdhFeatPayload] at hp
    by_cases h1 : (!pyTruthy (dictGet f "FDH_ID")) = true
    · rw [if_pos h1] at hp; exact Option.noConfusion hp
    rw [if_neg h1] at hp
    cases h2 : lookupStr L (pyStrip (pyStr (dictGet f "FDH_ID"))) with
    | none => rw [h2] at hp; exact Option.noConfusion hp
    | some rec =>
    rw [h2] at hp
    dsimp only at hp
    by_cases h3 : rec = []
    · rw [if_pos h3] at hp; exact Option.noConfusion hp
    rw [if_neg h3] at hp
    by_cases h4 : dictGet f "OBJECTID" = PyVal.none
    · rw [if_pos h4] at hp; exact Option.noConfusion hp
    rw [if_neg h4] at hp
    by_cases h5 : (fdhOutAttrs t rec f (dictGet f "OBJECTID")
        (pyStrip (pyStr (dictGet f "FDH_ID")))).length > 2
    case neg => rw [if_neg h5] at hp; exact Option.noConfusion hp
    rw [if_pos h5] at hp
    injection hp with hp
    subst hp
    have hridne : pyStrip (pyStr (dictGet f "FDH_ID")) ≠ "" :=
      hL _ rec h2
    have hpnd := fdhOutAttrs_nodup t rec f (dictGet f "OBJECTID")
      (pyStrip (pyStr (dictGet f "FDH_ID")))
    have harcs : (FIELD_MAPPING.map Prod.snd).Nodup := by decide
    have hlkOID : lookupStr (fdhOutAttrs t rec f (dictGet f "OBJECTID")
        (pyStrip (pyStr (dictGet f "FDH_ID")))) "OBJECTID" =
        some (dictGet f "OBJECTID") := by
      unfold fdhOutAttrs
      rw [lookup_foldStep_notin (fdhFieldWrite_cases t rec f) FIELD_MAPPING _ _ (by decide)]
      simp [fdhInitAttrs, lookupStr]
    have hlkFID : lookupStr (fdhOutAttrs t rec f (dictGet f "OBJECTID")
        (pyStrip (pyStr (dictGet f "FDH_ID")))) "FDH_ID" =
        some (PyVal.str (pyStrip (pyStr (dictGet f "FDH_ID")))) := by
      unfold fdhOutAttrs
      rw [lookup_foldStep_notin (fdhFieldWrite_cases t rec f) FIELD_MAPPING _ _ (by decide)]
      simp [fdhInitAttrs, lookupStr]
    set recId := pyStrip (pyStr (dictGet f "FDH_ID")) with hrid
    set oid := dictGet f "OBJECTID" with hoid0
    set p := fdhOutAttrs t rec f oid recId with hpdef
    set f1 := applyAttrsTo f p with hf1def
    have hlk1 : ∀ k, lookupStr f1 k =
        (match lookupStr p k with
         | some v => some v
         | Option.none => lookupStr f k) := lookup_applyAttrsTo p f hpnd
    have hfid1 : dictGet f1 "FDH_ID" = PyVal.str recId := by
      show (lookupStr f1 "FDH_ID").getD PyVal.none = _
      rw [hlk1, hlkFID]
      rfl
    have hoid1 : dictGet f1 "OBJECTID" = oid := by
      show (lookupStr f1 "OBJECTID").getD PyVal.none = _
      rw [hlk1, hlkOID]
      rfl
    have hfp1 : fdhFeatPayload t L f1 =
        (if (fdhOutAttrs t rec f1 oid recId).length > 2
         then some (fdhOutAttrs t rec f1 oid recId) else Option.none) := by
      dsimp only [fdhFeatPayload]
      rw [hfid1]
      rw [if_neg (by simp [pyTruthy, hridne])]
      have hh : pyStrip (pyStr (PyVal.str recId)) = recId := by
        show pyStrip recId = recId
        rw [hrid]
        exact pyStrip_idem _
      rw [hh, h2]
      dsimp only
      rw [if_neg h3, hoid1, if_neg h4]
    rw [hfp1]
    by_cases h6 : (fdhOutAttrs t rec f1 oid recId).length > 2
    case neg => rw [if_neg h6]
    rw [if_pos h6]
    show applyAttrsTo f1 (fdhOutAttrs t rec f1 oid recId) = f1
    refine applyAttrsTo_fixpoint _ f1 ?_
    intro kv hkv
    have hp2nd := fdhOutAttrs_nodup t rec f1 oid recId
    have hlkv : lookupStr (fdhOutAttrs t rec f1 oid recId) kv.1 = some kv.2 :=
      lookup_of_mem_nodup _ hp2nd kv hkv
    rcases fdhOutAttrs_mem t rec f1 oid recId kv hkv with hk | hk | hk
    · -- OBJECTID
      have hlk2 : lookupStr (fdhOutAttrs t rec f1 oid recId) "OBJECTID" = some oid := by
        unfold fdhOutAttrs
        rw [lookup_foldStep_notin (fdhFieldWrite_cases t rec f1) FIELD_MAPPING _ _ (by decide)]
        simp [fdhInitAttrs, lookupStr]
      rw [hk] at hlkv ⊢
      rw [hlk2] at hlkv
      injection hlkv with hv
      rw [hlk1, hlkOID, hv]
    · -- FDH_ID
      have hlk2 : lookupStr (fdhOutAttrs t rec f1 oid recId) "FDH_ID" =
          some (PyVal.str recId) := by
        unfold fdhOutAttrs
        rw [lookup_foldStep_notin (fdhFieldWrite_cases t rec f1) FIELD_MAPPING _ _ (by decide)]
        simp [fdhInitAttrs, lookupStr]
      rw [hk] at hlkv ⊢
      rw [hlk2] at hlkv
      injection hlkv with hv
      rw [hlk1, hlkFID, hv]
    · -- mapped arc
      obtain ⟨e, he, hearc⟩ := List.mem_map.mp hk
      have hinit1 := fdhOutAttrs_init_none oid recId e he
      have hl2 : lookupStr (fdhOutAttrs t rec f1 oid recId) e.2 =
          (match fdhFieldEff t rec f1 e with
           | some w => some w
           | Option.none => Option.none) := by
        unfold fdhOutAttrs
        rw [lookup_foldStep_eff (fdhFieldWrite_eff t rec f1) FIELD_MAPPING harcs e he _]
        cases fdhFieldEff t rec f1 e with
        | none => exact hinit1
        | some w => rfl
      have hl1 : lookupStr p e.2 =
          (match fdhFieldEff t rec f e with
           | some w => some w
           | Option.none => Option.none) := by
        rw [hpdef]
        unfold fdhOutAttrs
        rw [lookup_foldStep_eff (fdhFieldWrite_eff t rec f) FIELD_MAPPING harcs e he _]
        cases fdhFieldEff t rec f e with
        | none => exact hinit1
        | some w => rfl
      cases heff2 : fdhFieldEff t rec f1 e with
      | none =>
        rw [heff2] at hl2
        dsimp only at hl2
        rw [← hearc, hl2] at hlkv
        exact Option.noConfusion hlkv
      | some v =>
        rw [heff2] at hl2
        dsimp only at hl2
        rw [← hearc] at hlkv
        rw [hl2] at hlkv
        injection hlkv with hv
        rw [← hearc, hlk1]
        by_cases hdate : e.2 = "CX_Date" ∨ e.2 = "OFS_Date"
        · -- date entry
          have heff2' := heff2
          dsimp only [fdhFieldEff] at heff2'
          rw [if_pos hdate] at heff2'
          cases hpar : parse_qb_date (dictGet rec e.1) with
          | present d =>
            rw [hpar] at heff2'
            dsimp only at heff2'
            injection heff2' with hvd
            have heff1 : fdhFieldEff t rec f e = some (PyVal.date d) := by
              dsimp only [fdhFieldEff]
              rw [if_pos hdate, hpar]
            rw [hl1, heff1]
            dsimp only
            rw [hvd, hv]
          | unparseable =>
            rw [hpar] at heff2'
            exact Option.noConfusion heff2'
          | absent =>
            rw [hpar] at heff2'
            dsimp only at heff2'
            exfalso
            by_cases hbf : pyEmptyZero (dictGet f e.2) = true
            · -- run-1 wrote nothing; f1's value = f's value, still empty
              have heff1 : fdhFieldEff t rec f e = Option.none := by
                dsimp only [fdhFieldEff]
                rw [if_pos hdate, hpar]
                dsimp only
                rw [if_pos hbf]
              have hvf1 : dictGet f1 e.2 = dictGet f e.2 := by
                show (lookupStr f1 e.2).getD PyVal.none = _
                rw [hlk1 e.2, hl1, heff1]
                rfl
              rw [if_pos (show pyEmptyZero (dictGet f1 e.2) = true by rw [hvf1]; exact hbf)] at heff2'
              exact Option.noConfusion heff2' 
            · -- run-1 cleared; f1's value is null, hence empty
              have heff1 : fdhFieldEff t rec f e = some PyVal.none := by
                dsimp only [fdhFieldEff]
                rw [if_pos hdate, hpar]
                dsimp only
                rw [if_neg hbf]
              have hvf1 : dictGet f1 e.2 = PyVal.none := by
                show (lookupStr f1 e.2).getD PyVal.none = _
                rw [hlk1 e.2, hl1, heff1]
                rfl
              rw [if_pos (by rw [hvf1]; rfl)] at heff2'
              exact Option.noConfusion heff2'
        · -- non-date entry: the written value only depends on the QB row
          have hsame : fdhFieldEff t rec f1 e = fdhFieldEff t rec f e := by
            dsimp only [fdhFieldEff]
            rw [if_neg hdate, if_neg hdate]
          rw [hl1, ← hsame, heff2]
          dsimp only
          rw [hv]


theorem sanitize_key_stable (x : PyVal) (hx : x.isList = false)
    (hne : sanitize_arc_text x ≠ PyVal.none) :
    pyStrip (pyStr (sanitize_arc_text x)) = pyStrip (pyStr x) := by
  cases x with
  | none => exact absurd (by decide) hne
  | list l => simp [PyVal.isList] at hx
  | num q =>
    have h : sanitize_arc_text (PyVal.num q) = PyVal.num q := by
      dsimp only [sanitize_arc_text, normalize_qb_value]
      rw [if_neg (by simp)]
    rw [h]
  | bool b =>
    have h : sanitize_arc_text (PyVal.bool b) = PyVal.bool b := by
      dsimp only [sanitize_arc_text, normalize_qb_value]
      rw [if_neg (by simp)]
    rw [h]
  | date d =>
    have h : sanitize_arc_text (PyVal.date d) = PyVal.date d := by
      dsimp only [sanitize_arc_text, normalize_qb_value]
      rw [if_neg (by simp)]
    rw [h]
  | str s0 =>
    dsimp only [sanitize_arc_text, normalize_qb_value] at hne ⊢
    by_cases h0 : s0 = ""
    · rw [if_pos (by simp [h0])] at hne
      exact absurd rfl hne
    · rw [if_neg (by simp [h0])] at hne ⊢
      dsimp only at hne ⊢
      by_cases hsent : pyLower (pyStrip s0) = "<null>" ∨ pyLower (pyStrip s0) = "null" ∨
          pyLower (pyStrip s0) = "none" ∨ pyLower (pyStrip s0) = "n/a"
      · rw [if_pos hsent] at hne
        exact absurd rfl hne
      · rw [if_neg hsent] at hne ⊢
        by_cases hang : angleWrapped (pyStrip s0) = true
        · rw [if_pos hang] at hne
          exact absurd rfl hne
        · rw [if_neg hang]
          show pyStrip (pyStrip s0) = pyStrip s0
          exact pyStrip_idem s0

theorem mduOutAttrs_init_mduid (oid : PyVal) :
    lookupStr ([("OBJECTID", oid)] : Attrs) "MDU_id" = Option.none := by
  simp [lookupStr]

theorem mduFeat_state_idem (types : List (String × String)) (rows : List Attrs)
    (hrowsNL : ∀ r ∈ rows, (dictGet r "MDU ID").isList = false)
    (hint : isIntType (arcTypeOf types "MDU_id") = false)
    (hfloat : isFloatType (arcTypeOf types "MDU_id") = false)
    (f : Attrs) :
    applyOptP (applyOptP f (mduFeatPayload types (buildLookup "MDU ID" rows) f))
      (mduFeatPayload types (buildLookup "MDU ID" rows)
        (applyOptP f (mduFeatPayload types (buildLookup "MDU ID" rows) f))) =
    applyOptP f (mduFeatPayload types (buildLookup "MDU ID" rows) f) := by
  cases hp : mduFeatPayload types (buildLookup "MDU ID" rows) f with
  | none =>
    dsimp only [applyOptP]
    rw [hp]
  | some p =>
    dsimp only [applyOptP]
    dsimp only [mduFeatPayload] at hp
    by_cases h0 : dictGet f "OBJECTID" = PyVal.none
    · rw [if_pos h0] at hp; exact Option.noConfusion hp
    rw [if_neg h0] at hp
    by_cases h1 : (!pyTruthy (dictGet f "MDU_id")) = true
    · rw [if_pos h1] at hp; exact Option.noConfusion hp
    rw [if_neg h1] at hp
    cases h2 : lookupStr (buildLookup "MDU ID" rows) (pyStrip (pyStr (dictGet f "MDU_id"))) with
    | none => rw [h2] at hp; exact Option.noConfusion hp
    | some rec =>
    rw [h2] at hp
    dsimp only at hp
    by_cases h3 : rec = []
    · rw [if_pos h3] at hp; exact Option.noConfusion hp
    rw [if_neg h3] at hp
    by_cases h5 : (mduOutAttrs types rec (dictGet f "OBJECTID")).length > 1
    case neg => rw [if_neg h5] at hp; exact Option.noConfusion hp
    rw [if_pos h5] at hp
    injection hp with hp
    subst hp
    have hinv := buildLookup_inv "MDU ID" rows (pyStrip (pyStr (dictGet f "MDU_id"))) rec h2
    have hnl : (dictGet rec "MDU ID").isList = false := hrowsNL rec hinv.2.2
    have hmnd := mduOutAttrs_nodup types rec (dictGet f "OBJECTID")
    have harcs : (MDU_FIELD_MAPPING.map Prod.snd).Nodup := by decide
    have hlkOID : lookupStr (mduOutAttrs types rec (dictGet f "OBJECTID")) "OBJECTID" =
        some (dictGet f "OBJECTID") := by
      unfold mduOutAttrs
      rw [lookup_foldStep_notin (mduFieldWrite_cases types rec) MDU_FIELD_MAPPING _ _ (by decide)]
      simp [lookupStr]
    have heffMDU : mduFieldEff types rec ("MDU ID", "MDU_id") =
        (if sanitize_arc_text (dictGet rec "MDU ID") = PyVal.none ∨
            sanitize_arc_text (dictGet rec "MDU ID") = PyVal.str ""
         then Option.none else some (sanitize_arc_text (dictGet rec "MDU ID"))) := by
      dsimp only [mduFieldEff]
      rw [if_neg (by decide), if_neg (by decide)]
      rw [if_neg (show ¬(isIntType (arcTypeOf types "MDU_id") = true) by rw [hint]; decide)]
      rw [if_neg (show ¬(isFloatType (arcTypeOf types "MDU_id") = true) by rw [hfloat]; decide)]
    have hl1 : lookupStr (mduOutAttrs types rec (dictGet f "OBJECTID")) "MDU_id" =
        (match mduFieldEff types rec ("MDU ID", "MDU_id") with
         | some w => some w
         | Option.none => Option.none) := by
      have hfold := lookup_foldStep_eff (mduFieldWrite_eff types rec) MDU_FIELD_MAPPING
        harcs ("MDU ID", "MDU_id") (by decide) [("OBJECTID", dictGet f "OBJECTID")]
      dsimp only at hfold
      unfold mduOutAttrs
      rw [hfold]
      cases mduFieldEff types rec ("MDU ID", "MDU_id") with
      | none => exact mduOutAttrs_init_mduid _
      | some w => rfl
    set f1 := applyAttrsTo f (mduOutAttrs types rec (dictGet f "OBJECTID")) with hf1def
    have hlk1 : ∀ k, lookupStr f1 k =
        (match lookupStr (mduOutAttrs types rec (dictGet f "OBJECTID")) k with
         | some v => some v
         | Option.none => lookupStr f k) :=
      lookup_applyAttrsTo (mduOutAttrs types rec (dictGet f "OBJECTID")) f hmnd
    have hoid1 : dictGet f1 "OBJECTID" = dictGet f "OBJECTID" := by
      show (lookupStr f1 "OBJECTID").getD PyVal.none = _
      rw [hlk1, hlkOID]
      rfl
    have hk2 : pyStrip (pyStr (dictGet f1 "MDU_id")) = pyStrip (pyStr (dictGet f "MDU_id")) := by
      by_cases hsan : sanitize_arc_text (dictGet rec "MDU ID") = PyVal.none ∨
          sanitize_arc_text (dictGet rec "MDU ID") = PyVal.str ""
      · have heff : mduFieldEff types rec ("MDU ID", "MDU_id") = Option.none := by
          rw [heffMDU, if_pos hsan]
        have hveq : dictGet f1 "MDU_id" = dictGet f "MDU_id" := by
          show (lookupStr f1 "MDU_id").getD PyVal.none = _
          rw [hlk1, hl1, heff]
          rfl
        rw [hveq]
      · have heff : mduFieldEff types rec ("MDU ID", "MDU_id") =
            some (sanitize_arc_text (dictGet rec "MDU ID")) := by
          rw [heffMDU, if_neg hsan]
        have hveq : dictGet f1 "MDU_id" = sanitize_arc_text (dictGet rec "MDU ID") := by
          show (lookupStr f1 "MDU_id").getD PyVal.none = _
          rw [hlk1, hl1, heff]
          rfl
        push_neg at hsan
        rw [hveq, sanitize_key_stable _ hnl hsan.1, hinv.1]
    cases htr : pyTruthy (dictGet f1 "MDU_id") with
    | false =>
      have hfp1 : mduFeatPayload types (buildLookup "MDU ID" rows) f1 = Option.none := by
        dsimp only [mduFeatPayload]
        rw [hoid1, if_neg h0]
        rw [if_pos (by rw [htr]; rfl)]
      rw [hfp1]
    | true =>
      have hfp1 : mduFeatPayload types (buildLookup "MDU ID" rows) f1 =
          some (mduOutAttrs types rec (dictGet f "OBJECTID")) := by
        dsimp only [mduFeatPayload]
        rw [hoid1, if_neg h0]
        rw [if_neg (by rw [htr]; decide)]
        rw [hk2, h2]
        dsimp only
        rw [if_neg h3]
        rw [if_pos h5]
      rw [hfp1]
      show applyAttrsTo f1 (mduOutAttrs types rec (dictGet f "OBJECTID")) = f1
      refine applyAttrsTo_fixpoint _ f1 ?_
      intro kv hkv
      rw [hlk1, lookup_of_mem_nodup _ hmnd kv hkv]


theorem fdhOutAttrs_lookup_OID (t : List (String × String)) (rec feat : Attrs)
    (oid : PyVal) (recId : String) :
    lookupStr (fdhOutAttrs t rec feat oid recId) "OBJECTID" = some oid := by
  unfold fdhOutAttrs
  rw [lookup_foldStep_notin (fdhFieldWrite_cases t rec feat) FIELD_MAPPING _ _ (by decide)]
  simp [fdhInitAttrs, lookupStr]

theorem mduOutAttrs_lookup_OID (t : List (String × String)) (rec : Attrs)
    (oid : PyVal) :
    lookupStr (mduOutAttrs t rec oid) "OBJECTID" = some oid := by
  unfold mduOutAttrs
  rw [lookup_foldStep_notin (mduFieldWrite_cases t rec) MDU_FIELD_MAPPING _ _ (by decide)]
  simp [lookupStr]

theorem fdhFeatPayload_shape (t : List (String × String))
    (L : List (String × Attrs)) (f : Attrs) (p : Attrs)
    (h : fdhFeatPayload t L f = some p) :
    ∃ rec, p = fdhOutAttrs t rec f (dictGet f "OBJECTID")
      (pyStrip (pyStr (dictGet f "FDH_ID"))) := by
  dsimp only [fdhFeatPayload] at h
  by_cases h1 : (!pyTruthy (dictGet f "FDH_ID")) = true
  · rw [if_pos h1] at h; exact Option.noConfusion h
  rw [if_neg h1] at h
  cases h2 : lookupStr L (pyStrip (pyStr (dictGet f "FDH_ID"))) with
  | none => rw [h2] at h; exact Option.noConfusion h
  | some rec =>
  rw [h2] at h
  dsimp only at h
  by_cases h3 : rec = []
  · rw [if_pos h3] at h; exact Option.noConfusion h
  rw [if_neg h3] at h
  by_cases h4 : dictGet f "OBJECTID" = PyVal.none
  · rw [if_pos h4] at h; exact Option.noConfusion h
  rw [if_neg h4] at h
  by_cases h5 : (fdhOutAttrs t rec f (dictGet f "OBJECTID")
      (pyStrip (pyStr (dictGet f "FDH_ID")))).length > 2
  case neg => rw [if_neg h5] at h; exact Option.noConfusion h
  rw [if_pos h5] at h
  injection h with h
  exact ⟨rec, h.symm⟩

theorem mduFeatPayload_shape (t : List (String × String))
    (L : List (String × Attrs)) (f : Attrs) (p : Attrs)
    (h : mduFeatPayload t L f = some p) :
    ∃ rec, p = mduOutAttrs t rec (dictGet f "OBJECTID") := by
  dsimp only [mduFeatPayload] at h
  by_cases h0 : dictGet f "OBJECTID" = PyVal.none
  · rw [if_pos h0] at h; exact Option.noConfusion h
  rw [if_neg h0] at h
  by_cases h1 : (!pyTruthy (dictGet f "MDU_id")) = true
  · rw [if_pos h1] at h; exact Option.noConfusion h
  rw [if_neg h1] at h
  cases h2 : lookupStr L (pyStrip (pyStr (dictGet f "MDU_id"))) with
  | none => rw [h2] at h; exact Option.noConfusion h
  | some rec =>
  rw [h2] at h
  dsimp only at h
  by_cases h3 : rec = []
  · rw [if_pos h3] at h; exact Option.noConfusion h
  rw [if_neg h3] at h
  by_cases h5 : (mduOutAttrs t rec (dictGet f "OBJECTID")).length > 1
  case neg => rw [if_neg h5] at h; exact Option.noConfusion h
  rw [if_pos h5] at h
  injection h with h
  exact ⟨rec, h.symm⟩

theorem fdhPayload_oid (t : List (String × String))
    (L : List (String × Attrs)) (f : Attrs) (p : Attrs)
    (h : fdhFeatPayload t L f = some p) :
    dictGet p "OBJECTID" = dictGet f "OBJECTID" := by
  obtain ⟨rec, rfl⟩ := fdhFeatPayload_shape t L f p h
  show (lookupStr _ "OBJECTID").getD PyVal.none = _
  rw [fdhOutAttrs_lookup_OID]
  rfl

theorem fdhPayload_oid_pres (t : List (String × String))
    (L : List (String × Attrs)) (f : Attrs) (p : Attrs)
    (h : fdhFeatPayload t L f = some p) :
    dictGet (applyAttrsTo f p) "OBJECTID" = dictGet f "OBJECTID" := by
  have hnd := (fdhFeatPayload_props t L f p h).2.1
  obtain ⟨rec, rfl⟩ := fdhFeatPayload_shape t L f p h
  show (lookupStr _ "OBJECTID").getD PyVal.none = _
  rw [lookup_applyAttrsTo _ f hnd, fdhOutAttrs_lookup_OID]
  rfl

theorem mduPayload_oid (t : List (String × String))
    (L : List (String × Attrs)) (f : Attrs) (p : Attrs)
    (h : mduFeatPayload t L f = some p) :
    dictGet p "OBJECTID" = dictGet f "OBJECTID" := by
  obtain ⟨rec, rfl⟩ := mduFeatPayload_shape t L f p h
  show (lookupStr _ "OBJECTID").getD PyVal.none = _
  rw [mduOutAttrs_lookup_OID]
  rfl

theorem mduPayload_oid_pres (t : List (String × String))
    (L : List (String × Attrs)) (f : Attrs) (p : Attrs)
    (h : mduFeatPayload t L f = some p) :
    dictGet (applyAttrsTo f p) "OBJECTID" = dictGet f "OBJECTID" := by
  have hnd := (mduFeatPayload_props t L f p h).2.1
  obtain ⟨rec, rfl⟩ := mduFeatPayload_shape t L f p h
  show (lookupStr _ "OBJECTID").getD PyVal.none = _
  rw [lookup_applyAttrsTo _ f hnd, mduOutAttrs_lookup_OID]
  rfl

/-- C2 (amended): a second reconciliation run against unchanged source data
and the first run's resulting feature state is a state-level no-op: applying
the second run's payload list changes no feature.  For the FDH engine this
needs pairwise-distinct OBJECTIDs; for the MDU engine additionally that the
QB business-key values are not multi-selects and that the MDU_id target
attribute is not integer- or float-typed.  (The second run's payload LIST is
in general not empty: non-date fields are re-written unconditionally.) -/
theorem C2_second_run_stability :
    (∀ (t : List (String × String)) (qb feats : List Attrs) (m0 m1 : Metrics)
        (feats1 : List Attrs),
      List.Pairwise (· ≠ ·) (feats.map (fun f => dictGet f "OBJECTID")) →
      feats1 = applyUpdates feats (update_arcgis_prepare t qb feats m0).2 →
      applyUpdates feats1 (update_arcgis_prepare t qb feats1 m1).2 = feats1) ∧
    (∀ (t : List (String × String)) (qb feats : List Attrs) (m0 m1 : Metrics)
        (feats1 : List Attrs),
      List.Pairwise (· ≠ ·) (feats.map (fun f => dictGet f "OBJECTID")) →
      (∀ r ∈ qb, (dictGet r "MDU ID").isList = false) →
      isIntType (arcTypeOf t "MDU_id") = false →
      isFloatType (arcTypeOf t "MDU_id") = false →
      feats1 = applyUpdates feats (update_mdu_prepare t qb feats m0).2 →
      applyUpdates feats1 (update_mdu_prepare t qb feats1 m1).2 = feats1) := by
  constructor
  · intro t qb feats m0 m1 feats1 hdist hf1
    have hL : ∀ k r, lookupStr (buildLookup "FDH_ID_QB" qb) k = some r → k ≠ "" :=
      fun k r h => ((buildLookup_inv "FDH_ID_QB" qb k r h).2).1
    have hoid : ∀ f p, fdhFeatPayload t (buildLookup "FDH_ID_QB" qb) f = some p →
        dictGet p "OBJECTID" = dictGet f "OBJECTID" :=
      fun f p h => fdhPayload_oid t _ f p h
    have hpres : ∀ f p, fdhFeatPayload t (buildLookup "FDH_ID_QB" qb) f = some p →
        dictGet (applyAttrsTo f p) "OBJECTID" = dictGet f "OBJECTID" :=
      fun f p h => fdhPayload_oid_pres t _ f p h
    have h1 : feats1 = feats.map
        (fun f => applyOptP f (fdhFeatPayload t (buildLookup "FDH_ID_QB" qb) f)) := by
      rw [hf1, update_arcgis_prepare_updates]
      exact applyUpdates_pointwise _ hoid hpres feats hdist
    have hoidpres : ∀ f,
        dictGet (applyOptP f (fdhFeatPayload t (buildLookup "FDH_ID_QB" qb) f)) "OBJECTID" =
        dictGet f "OBJECTID" := by
      intro f
      cases h : fdhFeatPayload t (buildLookup "FDH_ID_QB" qb) f with
      | none => rfl
      | some p => exact hpres f p h
    have hdist1 : List.Pairwise (· ≠ ·) (feats1.map (fun f => dictGet f "OBJECTID")) := by
      rw [h1, List.map_map]
      have he : feats.map ((fun f => dictGet f "OBJECTID") ∘
          (fun f => applyOptP f (fdhFeatPayload t (buildLookup "FDH_ID_QB" qb) f))) =
          feats.map (fun f => dictGet f "OBJECTID") :=
        List.map_congr_left (fun f _ => hoidpres f)
      rw [he]
      exact hdist
    rw [update_arcgis_prepare_updates,
      applyUpdates_pointwise _ hoid hpres feats1 hdist1]
    have hid : ∀ g ∈ feats1,
        applyOptP g (fdhFeatPayload t (buildLookup "FDH_ID_QB" qb) g) = g := by
      intro g hg
      rw [h1] at hg
      obtain ⟨f, hf, rfl⟩ := List.mem_map.mp hg
      exact fdhFeat_state_idem t (buildLookup "FDH_ID_QB" qb) hL f
    calc feats1.map (fun g => applyOptP g (fdhFeatPayload t (buildLookup "FDH_ID_QB" qb) g))
        = feats1.map id := List.map_congr_left hid
      _ = feats1 := List.map_id feats1
  · intro t qb feats m0 m1 feats1 hdist hnl hint hfloat hf1
    have hoid : ∀ f p, mduFeatPayload t (buildLookup "MDU ID" qb) f = some p →
        dictGet p "OBJECTID" = dictGet f "OBJECTID" :=
      fun f p h => mduPayload_oid t _ f p h
    have hpres : ∀ f p, mduFeatPayload t (buildLookup "MDU ID" qb) f = some p →
        dictGet (applyAttrsTo f p) "OBJECTID" = dictGet f "OBJECTID" :=
      fun f p h => mduPayload_oid_pres t _ f p h
    have h1 : feats1 = feats.map
        (fun f => applyOptP f (mduFeatPayload t (buildLookup "MDU ID" qb) f)) := by
      rw [hf1, update_mdu_prepare_updates]
      exact applyUpdates_pointwise _ hoid hpres feats hdist
    have hoidpres : ∀ f,
        dictGet (applyOptP f (mduFeatPayload t (buildLookup "MDU ID" qb) f)) "OBJECTID" =
        dictGet f "OBJECTID" := by
      intro f
      cases h : mduFeatPayload t (buildLookup "MDU ID" qb) f with
      | none => rfl
      | some p => exact hpres f p h
    have hdist1 : List.Pairwise (· ≠ ·) (feats1.map (fun f => dictGet f "OBJECTID")) := by
      rw [h1, List.map_map]
      have he : feats.map ((fun f => dictGet f "OBJECTID") ∘
          (fun f => applyOptP f (mduFeatPayload t (buildLookup "MDU ID" qb) f))) =
          feats.map (fun f => dictGet f "OBJECTID") :=
        List.map_congr_left (fun f _ => hoidpres f)
      rw [he]
      exact hdist
    rw [update_mdu_prepare_updates,
      applyUpdates_pointwise _ hoid hpres feats1 hdist1]
    have hid : ∀ g ∈ feats1,
        applyOptP g (mduFeatPayload t (buildLookup "MDU ID" qb) g) = g := by
      intro g hg
      rw [h1] at hg
      obtain ⟨f, hf, rfl⟩ := List.mem_map.mp hg
      exact mduFeat_state_idem t qb hnl hint hfloat f
    calc feats1.map (fun g => applyOptP g (mduFeatPayload t (buildLookup "MDU ID" qb) g))
        = feats1.map id := List.map_congr_left hid
      _ = feats1 := List.map_id feats1

/-- C2, refuting the claim as stated: for QB row {FDH_ID_QB: "A1",
Project Number: "P1"} and the single feature {OBJECTID: 1, FDH_ID: "A1"},
the second run against the post-first-run state prepares a NON-empty
payload list (non-date fields are re-sent unconditionally). -/
theorem C2_counterexample :
    (update_arcgis_prepare []
        [[("FDH_ID_QB", PyVal.str "A1"), ("Project Number", PyVal.str "P1")]]
        (applyUpdates [[("OBJECTID", PyVal.num 1), ("FDH_ID", PyVal.str "A1")]]
          (update_arcgis_prepare []
            [[("FDH_ID_QB", PyVal.str "A1"), ("Project Number", PyVal.str "P1")]]
            [[("OBJECTID", PyVal.num 1), ("FDH_ID", PyVal.str "A1")]] {}).2)
        {}).2 ≠ [] := by decide

theorem C2_witness :
    applyUpdates
      (applyUpdates [[("OBJECTID", PyVal.num 1), ("FDH_ID", PyVal.str "A1")]]
        (update_arcgis_prepare []
          [[("FDH_ID_QB", PyVal.str "A1"), ("Project Number", PyVal.str "P1")]]
          [[("OBJECTID", PyVal.num 1), ("FDH_ID", PyVal.str "A1")]] {}).2)
      (update_arcgis_prepare []
        [[("FDH_ID_QB", PyVal.str "A1"), ("Project Number", PyVal.str "P1")]]
        (applyUpdates [[("OBJECTID", PyVal.num 1), ("FDH_ID", PyVal.str "A1")]]
          (update_arcgis_prepare []
            [[("FDH_ID_QB", PyVal.str "A1"), ("Project Number", PyVal.str "P1")]]
            [[("OBJECTID", PyVal.num 1), ("FDH_ID", PyVal.str "A1")]] {}).2)
        {}).2 =
      (applyUpdates [[("OBJECTID", PyVal.num 1), ("FDH_ID", PyVal.str "A1")]]
        (update_arcgis_prepare []
          [[("FDH_ID_QB", PyVal.str "A1"), ("Project Number", PyVal.str "P1")]]
          [[("OBJECTID", PyVal.num 1), ("FDH_ID", PyVal.str "A1")]] {}).2) ∧
    applyUpdates
      (applyUpdates [[("OBJECTID", PyVal.num 1), ("MDU_id", PyVal.str "M1")]]
        (update_mdu_prepare []
          [[("MDU ID", PyVal.str "M1"), ("Property Name", PyVal.str "Casa")]]
          [[("OBJECTID", PyVal.num 1), ("MDU_id", PyVal.str "M1")]] {}).2)
      (update_mdu_prepare []
        [[("MDU ID", PyVal.str "M1"), ("Property Name", PyVal.str "Casa")]]
        (applyUpdates [[("OBJECTID", PyVal.num 1), ("MDU_id", PyVal.str "M1")]]
          (update_mdu_prepare []
            [[("MDU ID", PyVal.str "M1"), ("Property Name", PyVal.str "Casa")]]
            [[("OBJECTID", PyVal.num 1), ("MDU_id", PyVal.str "M1")]] {}).2)
        {}).2 =
      (applyUpdates [[("OBJECTID", PyVal.num 1), ("MDU_id", PyVal.str "M1")]]
        (update_mdu_prepare []
          [[("MDU ID", PyVal.str "M1"), ("Property Name", PyVal.str "Casa")]]
          [[("OBJECTID", PyVal.num 1), ("MDU_id", PyVal.str "M1")]] {}).2) :=
  ⟨C2_second_run_stability.1 []
      [[("FDH_ID_QB", PyVal.str "A1"), ("Project Number", PyVal.str "P1")]]
      [[("OBJECTID", PyVal.num 1), ("FDH_ID", PyVal.str "A1")]] {} {} _
      (by decide) rfl,
    C2_second_run_stability.2 []
      [[("MDU ID", PyVal.str "M1"), ("Property Name", PyVal.str "Casa")]]
      [[("OBJECTID", PyVal.num 1), ("MDU_id", PyVal.str "M1")]] {} {} _
      (by decide) (by decide) (by decide) (by decide) rfl⟩

end QBSync
